import Mathlib

/-!
Verification of the verse/branch state model and context-assembly algorithm of the
llm-ideation-canvas repository.

The embedding follows the TypeScript source:
* the entity model comes from the `types` module (`Position`, `Size`, `ChatMessage`,
  `VerseComponent`, `Verse`, `CanvasState`);
* the store operations come from `src/app/store/canvasStore.ts` (the zustand store);
* the context assembler comes from the `getParentChain` closure inside the chat
  window component (`src/unnamed/part_003`);
* the extraction handlers (`handleAddBoard`, `handleGenerateSystemMap`) come from
  `src/app/components/Verse/Verse.tsx`.

Effects are made explicit: the `uuidv4()` and `Date.now()` calls of the source
become parameters of the operations (their freshness is a property of the
environment, recorded as hypotheses where a claim needs it), and the zustand
`set` combinator becomes ordinary state passing (`CanvasState → CanvasState`).
Numeric canvas geometry (`number` fields, the floating-point zoom division
`DEFAULT_VERSE_SIZE.width / currentZoom`) is carried as `Int` data and, where the
source divides by the zoom, the already-scaled size is passed in as a parameter;
no claim depends on the geometry.
-/

namespace Canvas

/-- Message role, `'user' | 'assistant' | 'system'` in the types module. -/
inductive Role where
  | user
  | assistant
  | system
deriving DecidableEq

/-- One chat turn.  The TS interface declares `id` and `timestamp` optional, but
every message the store constructs (`addChatMessage`, the branch seed message)
carries both, so they are total here. -/
structure ChatMessage where
  role : Role
  content : String
  id : String
  timestamp : Nat
deriving DecidableEq

/-- `Position` from the types module (numbers carried as `Int`). -/
structure Pos where
  x : Int
  y : Int
deriving DecidableEq

/-- `Size` from the types module (numbers carried as `Int`). -/
structure Size where
  width : Int
  height : Int
deriving DecidableEq

/-- Component discriminator, `'chat' | 'board' | 'systemMap'`. -/
inductive CompType where
  | chat
  | board
  | systemMap
deriving DecidableEq

/-- `VerseComponent` from the types module (`data` payload omitted: the store
variant under verification never writes it). -/
structure VerseComponent where
  id : String
  type : CompType
  position : Pos
  size : Size
  zIndex : Nat
deriving DecidableEq

/-- Kanban column of a board card. -/
inductive Column where
  | elaborate
  | problems
  | solutions
deriving DecidableEq

/-- `BoardCard` from `KanbanBoard.tsx`. -/
structure BoardCard where
  id : String
  content : String
  column : Column
deriving DecidableEq

/-- Node kind of a system-map node. -/
inductive NodeType where
  | component
  | service
  | database
  | user
  | external
deriving DecidableEq

/-- `SystemMapNode` from `SystemMap.tsx`. -/
structure SystemMapNode where
  id : String
  label : String
  x : Int
  y : Int
  type : NodeType
deriving DecidableEq

/-- `SystemMapEdge` from `SystemMap.tsx`. -/
structure SystemMapEdge where
  id : String
  source : String
  target : String
  label : Option String
deriving DecidableEq

/-- `SystemMapData` from `SystemMap.tsx`. -/
structure SystemMapData where
  nodes : List SystemMapNode
  edges : List SystemMapEdge
deriving DecidableEq

/-- `Verse` from the types module.  `name` is optional in TS but assigned by every
creation path; empty-string fallbacks of the source (`a || b` on strings) are
modelled by `strOr`.  The deprecated constant `internalView` field is omitted. -/
structure Verse where
  id : String
  name : String
  position : Pos
  size : Size
  chatHistory : List ChatMessage
  zIndex : Nat
  parentId : Option String
  branchSourceMessageId : Option String
  branches : List String
  systemPrompt : String
  modelId : String
  boardCards : Option (List BoardCard)
  systemMapData : Option SystemMapData
  components : List VerseComponent
deriving DecidableEq

/-- The store state: `verses`, `activeVerseId`, and the id of the globally
selected model (`state.selectedModel.id` in the source; the rest of the `AIModel`
record and the canvas view play no role in any claim). -/
structure CanvasState where
  verses : List Verse
  activeVerseId : Option String
  selectedModelId : String
deriving DecidableEq

/-- JavaScript `a || b` on strings: the empty string is falsy. -/
def strOr (a b : String) : String :=
  if a = "" then b else a

/-- JavaScript `a || b` where `a` is an optional string argument. -/
def jsOr (a : Option String) (b : String) : String :=
  match a with
  | some s => strOr s b
  | none => b

/-- `availableModels[0].id` of the types module. -/
def defaultModelId : String := "claude-3-opus-20240229"

/-- `DEFAULT_CHAT_COMPONENT_SIZE` of the store. -/
def defaultChatComponentSize : Size := ⟨300, 250⟩

/-- `DEFAULT_BOARD_COMPONENT_SIZE` of the store. -/
def defaultBoardComponentSize : Size := ⟨400, 300⟩

/-- `DEFAULT_SYSTEM_MAP_COMPONENT_SIZE` of the store. -/
def defaultSystemMapComponentSize : Size := ⟨500, 400⟩

/-- `DEFAULT_SYSTEM_PROMPT` of the store. -/
def defaultSystemPrompt : String :=
  "You are a smart Chief Product and Technology Officer (CPTO) of a successful tech company. \nProvide thoughtful, strategic advice on product development, technology implementation, \nand technical leadership. Draw from your experience to help with technical challenges, \nproduct roadmaps, and business technology strategy. Be concise but insightful."

/-- Seed system-message text for a message-level branch (`branchVerse`). -/
def messageBranchSystemContent : String :=
  "This is a branched conversation from a specific message. The context from the parent conversation up to that message will be included in your requests."

/-- Seed system-message text for a whole-verse branch (`branchVerse`). -/
def verseBranchSystemContent : String :=
  "This is a branched conversation. The context from the parent conversation will be included in your requests."

/-- The `state.verses.map(v => v.id === id ? f(v) : v)` pattern used by every
per-verse mutator of the store. -/
def modifyVerse (id : String) (f : Verse → Verse) (vs : List Verse) : List Verse :=
  vs.map fun v => if v.id = id then f v else v

/-- `verses.find(v => v.id === id)`. -/
def findVerse (vs : List Verse) (id : String) : Option Verse :=
  vs.find? fun v => v.id == id

/-- Lookup of a verse in the state by id. -/
def getVerse (s : CanvasState) (id : String) : Option Verse :=
  findVerse s.verses id

/-- `state.verses.reduce((max, v) => Math.max(max, v.zIndex), 0)`. -/
def maxZIndex (vs : List Verse) : Nat :=
  vs.foldl (fun m v => max m v.zIndex) 0

/-- The initial store state (`initialState` in the store; `selectedModel` defaults
to `availableModels[0]`). -/
def initialState : CanvasState :=
  { verses := [], activeVerseId := none, selectedModelId := defaultModelId }

/-- `addVerse` of the store.  `verseId` and `chatComponentId` stand for the two
`uuidv4()` calls; `adjustedSize` stands for `DEFAULT_VERSE_SIZE` scaled by the
current zoom (a floating-point division in the source). -/
def addVerse (position : Pos) (parentId : Option String) (modelId : Option String)
    (verseId chatComponentId : String) (adjustedSize : Size)
    (s : CanvasState) : CanvasState :=
  let useModelId := jsOr modelId s.selectedModelId
  let newVerse : Verse :=
    { id := verseId
      name := "Verse " ++ verseId.take 4
      position := position
      size := adjustedSize
      chatHistory := []
      zIndex := maxZIndex s.verses + 1
      parentId := parentId
      branchSourceMessageId := none
      branches := []
      systemPrompt := defaultSystemPrompt
      modelId := strOr useModelId defaultModelId
      boardCards := none
      systemMapData := none
      components := [⟨chatComponentId, .chat, ⟨20, 20⟩, defaultChatComponentSize, 1⟩] }
  let updatedVerses :=
    match parentId with
    | some pid => modifyVerse pid (fun v => { v with branches := v.branches ++ [verseId] }) s.verses
    | none => s.verses
  { s with verses := updatedVerses ++ [newVerse], activeVerseId := some verseId }

/-- `branchVerse` of the store.  `sysMsgId`, `verseId`, `chatComponentId` stand for
the three `uuidv4()` calls, `now` for `Date.now()`, and `adjustedSize` for the
zoom-scaled default size.  Note that the source stores `branchSourceMessageId`
unconditionally from the `messageId` argument and never checks that the id
occurs in the parent history (only the display name falls back to the literal
`specific message` when it does not). -/
def branchVerse (id : String) (modelId : Option String) (messageId : Option String)
    (sysMsgId : String) (now : Nat) (verseId chatComponentId : String)
    (adjustedSize : Size) (s : CanvasState) : CanvasState :=
  match findVerse s.verses id with
  | none => s
  | some parentVerse =>
    let branchPosition : Pos :=
      ⟨parentVerse.position.x + parentVerse.size.width + 300, parentVerse.position.y + 100⟩
    let useModelId := jsOr modelId (strOr parentVerse.modelId s.selectedModelId)
    let systemContent :=
      match messageId with
      | some _ => messageBranchSystemContent
      | none => verseBranchSystemContent
    let systemMessage : ChatMessage := ⟨.system, systemContent, sysMsgId, now⟩
    let branchName :=
      match messageId with
      | some mid =>
        let messagePreview :=
          match parentVerse.chatHistory.find? (fun msg => msg.id == mid) with
          | some sourceMessage =>
            sourceMessage.content.take 20 ++
              (if sourceMessage.content.length > 20 then "..." else "")
          | none => "specific message"
        "Branch from \"" ++ messagePreview ++ "\" (" ++
          strOr parentVerse.name (parentVerse.id.take 4) ++ ")"
      | none =>
        "Branch " ++ verseId.take 4 ++ " (from " ++
          strOr parentVerse.name (parentVerse.id.take 4) ++ ")"
    let newVerse : Verse :=
      { id := verseId
        name := branchName
        position := branchPosition
        size := adjustedSize
        chatHistory := [systemMessage]
        zIndex := maxZIndex s.verses + 1
        parentId := some parentVerse.id
        branchSourceMessageId := messageId
        branches := []
        systemPrompt := parentVerse.systemPrompt
        modelId := useModelId
        boardCards := none
        systemMapData := none
        components := [⟨chatComponentId, .chat, ⟨20, 20⟩, defaultChatComponentSize, 1⟩] }
    let updatedVerses :=
      modifyVerse id (fun v => { v with branches := v.branches ++ [verseId] }) s.verses
    { s with verses := updatedVerses ++ [newVerse], activeVerseId := some verseId }

/-- `removeVerse` of the store: strips the removed id from its parent's
`branches`, then drops the verse. -/
def removeVerse (id : String) (s : CanvasState) : CanvasState :=
  match findVerse s.verses id with
  | none => s
  | some verseToRemove =>
    let updatedVerses :=
      (s.verses.map fun v =>
        if verseToRemove.parentId = some v.id then
          { v with branches := v.branches.filter (fun branchId => branchId != id) }
        else v).filter fun v => v.id != id
    { s with verses := updatedVerses,
             activeVerseId := if s.activeVerseId = some id then none else s.activeVerseId }

/-- `updateVersePosition` of the store. -/
def updateVersePosition (id : String) (position : Pos) (s : CanvasState) : CanvasState :=
  { s with verses := modifyVerse id (fun v => { v with position := position }) s.verses }

/-- `updateVerseSize` of the store. -/
def updateVerseSize (id : String) (size : Size) (s : CanvasState) : CanvasState :=
  { s with verses := modifyVerse id (fun v => { v with size := size }) s.verses }

/-- `updateVerseName` of the store. -/
def updateVerseName (id name : String) (s : CanvasState) : CanvasState :=
  { s with verses := modifyVerse id (fun v => { v with name := name }) s.verses }

/-- `updateVerseModel` of the store. -/
def updateVerseModel (id modelId : String) (s : CanvasState) : CanvasState :=
  { s with verses := modifyVerse id (fun v => { v with modelId := modelId }) s.verses }

/-- `updateSystemPrompt` of the store. -/
def updateSystemPrompt (verseId systemPrompt : String) (s : CanvasState) : CanvasState :=
  { s with verses := modifyVerse verseId (fun v => { v with systemPrompt := systemPrompt }) s.verses }

/-- `setActiveVerse` of the store: brings the verse to the front and records it
as active (even when no verse has the id). -/
def setActiveVerse (id : Option String) (s : CanvasState) : CanvasState :=
  if id = s.activeVerseId then { s with activeVerseId := id }
  else
    { s with
      verses := s.verses.map fun v =>
        if some v.id = id then { v with zIndex := maxZIndex s.verses + 1 } else v,
      activeVerseId := id }

/-- `addChatMessage` of the store: `msgId` stands for the `uuidv4()` call and
`now` for `Date.now()`; the message is appended with those metadata. -/
def addChatMessage (verseId : String) (role : Role) (content : String)
    (msgId : String) (now : Nat) (s : CanvasState) : CanvasState :=
  let messageWithMeta : ChatMessage := ⟨role, content, msgId, now⟩
  { s with verses :=
      modifyVerse verseId (fun v => { v with chatHistory := v.chatHistory ++ [messageWithMeta] }) s.verses }

/-- `updateBoardCards` of the store. -/
def updateBoardCards (verseId : String) (cards : List BoardCard) (s : CanvasState) : CanvasState :=
  { s with verses := modifyVerse verseId (fun v => { v with boardCards := some cards }) s.verses }

/-- `updateCardColumn` of the store. -/
def updateCardColumn (verseId cardId : String) (newColumn : Column) (s : CanvasState) : CanvasState :=
  match findVerse s.verses verseId with
  | none => s
  | some verse =>
    match verse.boardCards with
    | none => s
    | some cards =>
      let updatedCards :=
        cards.map fun card => if card.id = cardId then { card with column := newColumn } else card
      { s with verses := modifyVerse verseId (fun v => { v with boardCards := some updatedCards }) s.verses }

/-- `updateSystemMapData` of the store (the source defensively defaults missing
`nodes`/`edges` arrays of the untyped argument to `[]`; the argument arrives
here already shaped). -/
def updateSystemMapData (verseId : String) (data : SystemMapData) (s : CanvasState) : CanvasState :=
  { s with verses := modifyVerse verseId (fun v => { v with systemMapData := some data }) s.verses }

/-- `updateSystemMapNode` of the store. -/
def updateSystemMapNode (verseId nodeId : String) (x y : Int) (s : CanvasState) : CanvasState :=
  match findVerse s.verses verseId with
  | none => s
  | some verse =>
    match verse.systemMapData with
    | none => s
    | some smd =>
      let updatedNodes :=
        smd.nodes.map fun node => if node.id = nodeId then { node with x := x, y := y } else node
      { s with verses := s.verses.map fun v =>
          if v.id = verseId then
            { v with systemMapData := some ⟨updatedNodes,
                match v.systemMapData with | some d => d.edges | none => []⟩ }
          else v }

/-- `updateSystemMapNodeLabel` of the store. -/
def updateSystemMapNodeLabel (verseId nodeId label : String) (s : CanvasState) : CanvasState :=
  match findVerse s.verses verseId with
  | none => s
  | some verse =>
    match verse.systemMapData with
    | none => s
    | some smd =>
      let updatedNodes :=
        smd.nodes.map fun node => if node.id = nodeId then { node with label := label } else node
      { s with verses := s.verses.map fun v =>
          if v.id = verseId then
            { v with systemMapData := some ⟨updatedNodes,
                match v.systemMapData with | some d => d.edges | none => []⟩ }
          else v }

/-- `updateSystemMapEdgeLabel` of the store. -/
def updateSystemMapEdgeLabel (verseId edgeId label : String) (s : CanvasState) : CanvasState :=
  match findVerse s.verses verseId with
  | none => s
  | some verse =>
    match verse.systemMapData with
    | none => s
    | some smd =>
      let updatedEdges :=
        smd.edges.map fun edge => if edge.id = edgeId then { edge with label := some label } else edge
      { s with verses := s.verses.map fun v =>
          if v.id = verseId then
            { v with systemMapData := some ⟨
                match v.systemMapData with | some d => d.nodes | none => [],
                updatedEdges⟩ }
          else v }

/-- Highest z-index among a verse's components, as computed by the store
(`reduce (max, comp.zIndex), 0`). -/
def maxCompZIndex (comps : List VerseComponent) : Nat :=
  comps.foldl (fun m c => max m c.zIndex) 0

/-- `addComponent` of the store; `compId` stands for the `uuidv4()` call.
The default position divides the verse size by 4 (floating point in the source,
integer division here; no claim depends on it). -/
def addComponent (verseId : String) (ctype : CompType) (position : Option Pos)
    (compId : String) (s : CanvasState) : CanvasState :=
  match findVerse s.verses verseId with
  | none => s
  | some verse =>
    let defaultPosition : Pos := ⟨verse.size.width / 4, verse.size.height / 4⟩
    let componentSize :=
      match ctype with
      | .chat => defaultChatComponentSize
      | .board => defaultBoardComponentSize
      | .systemMap => defaultSystemMapComponentSize
    let newComponent : VerseComponent :=
      ⟨compId, ctype, position.getD defaultPosition, componentSize,
        maxCompZIndex verse.components + 1⟩
    { s with verses :=
        modifyVerse verseId (fun v => { v with components := v.components ++ [newComponent] }) s.verses }

/-- `removeComponent` of the store: a silent no-op when the verse is absent or
would be left with no component (`components.length <= 1`). -/
def removeComponent (verseId componentId : String) (s : CanvasState) : CanvasState :=
  match findVerse s.verses verseId with
  | none => s
  | some verse =>
    if verse.components.length ≤ 1 then s
    else
      let f := fun v => { v with components := v.components.filter (fun comp => comp.id != componentId) }
      { s with verses := modifyVerse verseId f s.verses }

/-- `updateComponentPosition` of the store. -/
def updateComponentPosition (verseId componentId : String) (position : Pos)
    (s : CanvasState) : CanvasState :=
  let f := fun v => { v with components := v.components.map (fun comp => if comp.id = componentId then { comp with position := position } else comp) }
  { s with verses := modifyVerse verseId f s.verses }

/-- `updateComponentSize` of the store. -/
def updateComponentSize (verseId componentId : String) (size : Size)
    (s : CanvasState) : CanvasState :=
  let f := fun v => { v with components := v.components.map (fun comp => if comp.id = componentId then { comp with size := size } else comp) }
  { s with verses := modifyVerse verseId f s.verses }

/-- `setActiveComponent` of the store (bring to front). -/
def setActiveComponent (verseId componentId : String) (s : CanvasState) : CanvasState :=
  match findVerse s.verses verseId with
  | none => s
  | some verse =>
    let f := fun v => { v with components := v.components.map (fun comp => if comp.id = componentId then { comp with zIndex := maxCompZIndex verse.components + 1 } else comp) }
    { s with verses := modifyVerse verseId f s.verses }

/-! ### Context assembler

`getParentChain` is the recursive closure inside the chat window's submit
handler (`src/unnamed/part_003`); it walks `parentId` links upward, filters out
system messages, truncates the direct parent at the branch-point message when
the verse being queried carries a `branchSourceMessageId`, and concatenates
grandparent context in front.  The source renders the sequence to a string
(`role: content` entries joined by blank lines); `getParentChainMsgs` is the
same walk at the level of message sequences, and `getParentChain` is the exact
string form.  The source recursion carries no bound; here an explicit fuel
argument bounds the walk, and the entry points supply `s.verses.length`, enough
for any acyclic parent chain. -/

/-- `chatHistory.filter(msg => msg.role !== 'system')`. -/
def filterNonSystem (history : List ChatMessage) : List ChatMessage :=
  history.filter fun msg => msg.role != Role.system

/-- The `filteredHistory` one ancestor contributes inside `getParentChain`:
the ancestor's history without system messages, truncated at the branch-point
message when the verse being assembled carries a `branchSourceMessageId` and
this ancestor is its direct parent (the source condition
`verse?.branchSourceMessageId && parent.id === verse.parentId`); a branch-point
id matching no message leaves the history untruncated
(`findIndex` returning `-1`). -/
def ancestorContribution (verse parent : Verse) : List ChatMessage :=
  match verse.branchSourceMessageId with
  | some srcId =>
    if verse.parentId = some parent.id then
      match parent.chatHistory.findIdx? (fun msg => msg.id == srcId) with
      | some messageIndex => filterNonSystem (parent.chatHistory.take (messageIndex + 1))
      | none => filterNonSystem parent.chatHistory
    else filterNonSystem parent.chatHistory
  | none => filterNonSystem parent.chatHistory

/-- The ancestor walk of `getParentChain`, at the level of message sequences.
`verse` is the verse whose context is being assembled (captured by the closure
in the source). -/
def getParentChainMsgs (verses : List Verse) (verse : Verse) : Nat → String → List ChatMessage
  | 0, _ => []
  | fuel + 1, verseId =>
    match findVerse verses verseId with
    | none => []
    | some parent =>
      let filteredHistory := ancestorContribution verse parent
      match parent.parentId with
      | some gp => getParentChainMsgs verses verse fuel gp ++ filteredHistory
      | none => filteredHistory

/-- The role label used when the source renders a message (`msg.role`). -/
def roleString : Role → String
  | .user => "user"
  | .assistant => "assistant"
  | .system => "system"

/-- One rendered context entry (the template literal `role: content`). -/
def renderMessage (msg : ChatMessage) : String :=
  roleString msg.role ++ ": " ++ msg.content

/-- `filteredHistory.map(...).join('\n\n')`. -/
def renderHistory (history : List ChatMessage) : String :=
  String.intercalate "\n\n" (history.map renderMessage)

/-- `getParentChain` exactly as in the source, producing the context string
(the `grandparentContext ? g + sep + p : p` collapse included). -/
def getParentChain (verses : List Verse) (verse : Verse) : Nat → String → String
  | 0, _ => ""
  | fuel + 1, verseId =>
    match findVerse verses verseId with
    | none => ""
    | some parent =>
      let filteredHistory := ancestorContribution verse parent
      let parentContext := renderHistory filteredHistory
      match parent.parentId with
      | some gp =>
        let grandparentContext := getParentChain verses verse fuel gp
        if grandparentContext ≠ "" then grandparentContext ++ "\n\n" ++ parentContext
        else parentContext
      | none => parentContext

/-- Context assembly for a verse, as the submit handler performs it: empty when
the verse has no parent or the parent is not found, otherwise the ancestor walk
from the direct parent — at the level of message sequences. -/
def assembleContextMsgs (s : CanvasState) (verse : Verse) : List ChatMessage :=
  match verse.parentId with
  | none => []
  | some pid =>
    match findVerse s.verses pid with
    | none => []
    | some _ => getParentChainMsgs s.verses verse s.verses.length pid

/-- Context assembly producing the exact context string of the source. -/
def assembleContext (s : CanvasState) (verse : Verse) : String :=
  match verse.parentId with
  | none => ""
  | some pid =>
    match findVerse s.verses pid with
    | none => ""
    | some _ => getParentChain s.verses verse s.verses.length pid

/-! ### Extraction handlers (`Verse.tsx`)

`handleAddBoard` / `handleGenerateSystemMap` guard on an existing nonempty
cached artifact, abort when the non-system transcript is empty, and otherwise
resolve the extraction response: the parsed JSON body on success, the built-in
mock data when the fetch rejects, the response is not ok, or `response.json()`
throws.  The fetch is modelled by a `FetchOutcome` argument and the store/UI
side effects by the returned action. -/

/-- Outcome of the extraction fetch as the handler observes it.  `netError` is a
rejected `fetch` (outer catch of the inner try), `notOk` a response with
`response.ok` false, `okMalformed` an ok response whose `response.json()`
throws, and `okJson` an ok response with a parsed body. -/
inductive FetchOutcome (α : Type) where
  | netError
  | notOk
  | okMalformed
  | okJson (data : α)
deriving DecidableEq

/-- Shape of the insight-extraction response body; the source reads
`data.elaborate || []` etc., so each array may be missing. -/
structure InsightResp where
  elaborate : Option (List BoardCard)
  problems : Option (List BoardCard)
  solutions : Option (List BoardCard)
deriving DecidableEq

/-- `mockInsightData` of `Verse.tsx` (the `!response.ok` branch rebuilds exactly
these cards with their columns). -/
def mockInsightData : InsightResp :=
  { elaborate := some [
      ⟨"elab-1", "Explore user authentication options including OAuth and JWT", .elaborate⟩,
      ⟨"elab-2", "Consider microservices architecture for better scalability", .elaborate⟩,
      ⟨"elab-3", "Investigate real-time data synchronization solutions", .elaborate⟩]
    problems := some [
      ⟨"prob-1", "Backend performance bottlenecks under high load", .problems⟩,
      ⟨"prob-2", "Mobile responsiveness issues on smaller screens", .problems⟩,
      ⟨"prob-3", "Data consistency challenges across distributed systems", .problems⟩]
    solutions := some [
      ⟨"sol-1", "Implement caching layer with Redis", .solutions⟩,
      ⟨"sol-2", "Adopt mobile-first design approach with Tailwind CSS", .solutions⟩,
      ⟨"sol-3", "Use event sourcing pattern for data integrity", .solutions⟩] }

/-- What the inner try/catch of `handleAddBoard` leaves in `data`: the parsed
body on success, `mockInsightData` otherwise. -/
def resolveInsightData : FetchOutcome InsightResp → InsightResp
  | .okJson d => d
  | _ => mockInsightData

/-- The flattening `[...(data.elaborate || []), ...(data.problems || []),
...(data.solutions || [])]`. -/
def flattenInsightData (d : InsightResp) : List BoardCard :=
  d.elaborate.getD [] ++ d.problems.getD [] ++ d.solutions.getD []

/-- Observable effect of a run of `handleAddBoard`. -/
inductive BoardAction where
  | addComponentOnly
  | abortNoConversation
  | setCardsAndAddComponent (cards : List BoardCard)
deriving DecidableEq

/-- `verse.boardCards && verse.boardCards.length > 0`. -/
def hasBoardCards (verse : Verse) : Bool :=
  match verse.boardCards with
  | some cs => cs.length > 0
  | none => false

/-- The decision logic of `handleAddBoard` in `Verse.tsx`: with a nonempty
cached board only a component is added; with an empty non-system transcript the
run aborts; otherwise `updateBoardCards` is called with the flattened resolved
data (mock data on any failure) and a board component is added. -/
def handleAddBoard (verse : Verse) (outcome : FetchOutcome InsightResp) : BoardAction :=
  if hasBoardCards verse then .addComponentOnly
  else
    let messages := verse.chatHistory.filter fun msg => msg.role != Role.system
    if messages.length = 0 then .abortNoConversation
    else .setCardsAndAddComponent (flattenInsightData (resolveInsightData outcome))

/-- `mockSystemMapData` of `Verse.tsx`. -/
def mockSystemMapData : SystemMapData :=
  { nodes := [
      ⟨"user1", "End User", 500, 100, .user⟩,
      ⟨"ui1", "Web Frontend", 300, 200, .component⟩,
      ⟨"ui2", "Mobile App", 700, 200, .component⟩,
      ⟨"api1", "API Gateway", 500, 300, .service⟩,
      ⟨"auth", "Auth Service", 300, 400, .service⟩,
      ⟨"core", "Core Service", 500, 400, .service⟩,
      ⟨"notif", "Notification Service", 700, 400, .service⟩,
      ⟨"db1", "User Database", 300, 500, .database⟩,
      ⟨"db2", "Main Database", 500, 500, .database⟩,
      ⟨"ext1", "Payment Provider", 700, 500, .external⟩]
    edges := [
      ⟨"e1", "user1", "ui1", none⟩,
      ⟨"e2", "user1", "ui2", none⟩,
      ⟨"e3", "ui1", "api1", none⟩,
      ⟨"e4", "ui2", "api1", none⟩,
      ⟨"e5", "api1", "auth", some "authenticate"⟩,
      ⟨"e6", "api1", "core", some "process"⟩,
      ⟨"e7", "api1", "notif", some "notify"⟩,
      ⟨"e8", "auth", "db1", none⟩,
      ⟨"e9", "core", "db2", none⟩,
      ⟨"e10", "core", "ext1", some "payments"⟩] }

/-- What the inner try/catch of `handleGenerateSystemMap` leaves in `data`. -/
def resolveSystemMapData : FetchOutcome SystemMapData → SystemMapData
  | .okJson d => d
  | _ => mockSystemMapData

/-- Observable effect of a run of `handleGenerateSystemMap`. -/
inductive MapAction where
  | addComponentOnly
  | abortNoConversation
  | setMapAndAddComponent (data : SystemMapData)
deriving DecidableEq

/-- `verse.systemMapData && verse.systemMapData.nodes.length > 0`. -/
def hasSystemMap (verse : Verse) : Bool :=
  match verse.systemMapData with
  | some d => d.nodes.length > 0
  | none => false

/-- The decision logic of `handleGenerateSystemMap` in `Verse.tsx`. -/
def handleGenerateSystemMap (verse : Verse) (outcome : FetchOutcome SystemMapData) : MapAction :=
  if hasSystemMap verse then .addComponentOnly
  else
    let messages := verse.chatHistory.filter fun msg => msg.role != Role.system
    if messages.length = 0 then .abortNoConversation
    else .setMapAndAddComponent (resolveSystemMapData outcome)

/-! ### Operation sequences and reachable store states

Every store mutator is packaged as an `Op`; `applyOp` dispatches to the
definitions above.  `OpFresh` records what the environment guarantees about the
`uuidv4()` values an operation consumes: a freshly generated id collides with
no id already occurring in the state (as a verse id, a `parentId` reference, a
`branches` entry, a component id, or a caller-supplied parent argument).
`Reach` is the set of states obtainable from the initial state by any sequence
of operations under those guarantees. -/

/-- One store mutation with its environment-supplied values. -/
inductive Op where
  | addVerse (position : Pos) (parentId : Option String) (modelId : Option String)
      (verseId chatComponentId : String) (adjustedSize : Size)
  | branchVerse (id : String) (modelId : Option String) (messageId : Option String)
      (sysMsgId : String) (now : Nat) (verseId chatComponentId : String) (adjustedSize : Size)
  | removeVerse (id : String)
  | updateVersePosition (id : String) (position : Pos)
  | updateVerseSize (id : String) (size : Size)
  | updateVerseName (id name : String)
  | updateVerseModel (id modelId : String)
  | updateSystemPrompt (verseId systemPrompt : String)
  | setActiveVerse (id : Option String)
  | addChatMessage (verseId : String) (role : Role) (content : String) (msgId : String) (now : Nat)
  | updateBoardCards (verseId : String) (cards : List BoardCard)
  | updateCardColumn (verseId cardId : String) (newColumn : Column)
  | updateSystemMapData (verseId : String) (data : SystemMapData)
  | updateSystemMapNode (verseId nodeId : String) (x y : Int)
  | updateSystemMapNodeLabel (verseId nodeId label : String)
  | updateSystemMapEdgeLabel (verseId edgeId label : String)
  | addComponent (verseId : String) (ctype : CompType) (position : Option Pos) (compId : String)
  | removeComponent (verseId componentId : String)
  | updateComponentPosition (verseId componentId : String) (position : Pos)
  | updateComponentSize (verseId componentId : String) (size : Size)
  | setActiveComponent (verseId componentId : String)

/-- Apply one operation to the store state. -/
def applyOp : Op → CanvasState → CanvasState
  | .addVerse position parentId modelId verseId chatComponentId adjustedSize =>
      addVerse position parentId modelId verseId chatComponentId adjustedSize
  | .branchVerse id modelId messageId sysMsgId now verseId chatComponentId adjustedSize =>
      branchVerse id modelId messageId sysMsgId now verseId chatComponentId adjustedSize
  | .removeVerse id => removeVerse id
  | .updateVersePosition id position => updateVersePosition id position
  | .updateVerseSize id size => updateVerseSize id size
  | .updateVerseName id name => updateVerseName id name
  | .updateVerseModel id modelId => updateVerseModel id modelId
  | .updateSystemPrompt verseId systemPrompt => updateSystemPrompt verseId systemPrompt
  | .setActiveVerse id => setActiveVerse id
  | .addChatMessage verseId role content msgId now => addChatMessage verseId role content msgId now
  | .updateBoardCards verseId cards => updateBoardCards verseId cards
  | .updateCardColumn verseId cardId newColumn => updateCardColumn verseId cardId newColumn
  | .updateSystemMapData verseId data => updateSystemMapData verseId data
  | .updateSystemMapNode verseId nodeId x y => updateSystemMapNode verseId nodeId x y
  | .updateSystemMapNodeLabel verseId nodeId label => updateSystemMapNodeLabel verseId nodeId label
  | .updateSystemMapEdgeLabel verseId edgeId label => updateSystemMapEdgeLabel verseId edgeId label
  | .addComponent verseId ctype position compId => addComponent verseId ctype position compId
  | .removeComponent verseId componentId => removeComponent verseId componentId
  | .updateComponentPosition verseId componentId position => updateComponentPosition verseId componentId position
  | .updateComponentSize verseId componentId size => updateComponentSize verseId componentId size
  | .setActiveComponent verseId componentId => setActiveComponent verseId componentId

/-- `x` is a verse id fresh for the state: it occurs nowhere as a verse id, a
`parentId` reference, or a `branches` entry (what `uuidv4()` guarantees with
overwhelming probability). -/
def FreshVerseId (s : CanvasState) (x : String) : Prop :=
  ∀ v ∈ s.verses, v.id ≠ x ∧ v.parentId ≠ some x ∧ x ∉ v.branches

/-- `x` is a component id occurring in no verse of the state. -/
def FreshComponentId (s : CanvasState) (x : String) : Prop :=
  ∀ v ∈ s.verses, ∀ c ∈ v.components, c.id ≠ x

/-- Freshness guarantees of the environment for the `uuidv4()` values the
operation consumes (operations that generate no verse or component id need
none). -/
def OpFresh : Op → CanvasState → Prop
  | .addVerse _ parentId _ verseId _ _, s => FreshVerseId s verseId ∧ parentId ≠ some verseId
  | .branchVerse _ _ _ _ _ verseId _ _, s => FreshVerseId s verseId
  | .addComponent _ _ _ compId, s => FreshComponentId s compId
  | _, _ => True

/-- Store states reachable from `initialState` by store operations whose
generated ids are fresh. -/
inductive Reach : CanvasState → Prop where
  | init : Reach initialState
  | step (s : CanvasState) (o : Op) : Reach s → OpFresh o s → Reach (applyOp o s)

/-- The structural invariant of the verse collection: verse ids are unique,
`branches` entries are exactly the ids of present children (each child's id
occurring exactly once in its parent's list), and every verse keeps a nonempty
component list with unique component ids. -/
structure Inv (s : CanvasState) : Prop where
  idsNodup : (s.verses.map Verse.id).Nodup
  branchesSound : ∀ p ∈ s.verses, ∀ x ∈ p.branches,
    ∃ c ∈ s.verses, c.id = x ∧ c.parentId = some p.id
  parentLinked : ∀ c ∈ s.verses, ∀ p ∈ s.verses,
    c.parentId = some p.id → p.branches.count c.id = 1
  compsNonempty : ∀ v ∈ s.verses, v.components ≠ []
  compIdsNodup : ∀ v ∈ s.verses, (v.components.map VerseComponent.id).Nodup

/-! ### Concrete fixtures

Small concrete states used by counterexamples and witnesses, mirroring the
scenario of the spec: root verse `A` with messages `user:"hi"`,
`assistant:"hello"`, `user:"bye"` (ids `m1`, `m2`, `m3`). -/

/-- `user: "hi"` with id `m1`. -/
def msgHi : ChatMessage := ⟨.user, "hi", "m1", 1⟩

/-- `assistant: "hello"` with id `m2`. -/
def msgHello : ChatMessage := ⟨.assistant, "hello", "m2", 2⟩

/-- `user: "bye"` with id `m3`. -/
def msgBye : ChatMessage := ⟨.user, "bye", "m3", 3⟩

/-- A default chat component with a given id. -/
def chatComp (cid : String) : VerseComponent :=
  ⟨cid, .chat, ⟨20, 20⟩, defaultChatComponentSize, 1⟩

/-- A plain root verse used as the template of the fixtures. -/
def baseVerse : Verse :=
  { id := "root", name := "Root", position := ⟨0, 0⟩, size := ⟨800, 450⟩,
    chatHistory := [], zIndex := 1, parentId := none, branchSourceMessageId := none,
    branches := [], systemPrompt := "sp", modelId := defaultModelId,
    boardCards := none, systemMapData := none, components := [chatComp "cc-root"] }

/-- Root verse `A` with the three scenario messages; its child `B` is recorded. -/
def verseA : Verse :=
  { baseVerse with
      id := "A"
      name := "A"
      chatHistory := [msgHi, msgHello, msgBye]
      branches := ["B"]
      components := [chatComp "ccA"] }

/-- Root verse `A` before any branch exists. -/
def verseA0 : Verse :=
  { verseA with branches := [] }

/-- `B`, a message-level branch of `A` at `m2`, itself branched to `C`. -/
def verseB : Verse :=
  { baseVerse with
      id := "B"
      name := "B"
      parentId := some "A"
      branchSourceMessageId := some "m2"
      chatHistory := [⟨.system, messageBranchSystemContent, "sB", 4⟩]
      branches := ["C"]
      components := [chatComp "ccB"]
      zIndex := 2 }

/-- `C`, a whole-verse branch of `B`. -/
def verseC : Verse :=
  { baseVerse with
      id := "C"
      name := "C"
      parentId := some "B"
      chatHistory := [⟨.system, verseBranchSystemContent, "sC", 5⟩]
      components := [chatComp "ccC"]
      zIndex := 3 }

/-- The three-verse chain `A → B → C` with the branch point of `B` at `m2`. -/
def sABC : CanvasState :=
  { verses := [verseA, verseB, verseC], activeVerseId := some "C",
    selectedModelId := defaultModelId }

/-- State holding only the root verse `A`. -/
def sA : CanvasState :=
  { verses := [verseA0], activeVerseId := none, selectedModelId := defaultModelId }

/-- The state after adding one root verse `v1` to the initial state. -/
def wS1 : CanvasState :=
  applyOp (.addVerse ⟨0, 0⟩ none none "v1" "c1" ⟨800, 450⟩) initialState

/-- `wS1` after branching `v1` (whole-verse branch) into `v2`. -/
def wS2 : CanvasState :=
  applyOp (.branchVerse "v1" none none "sys1" 10 "v2" "c2" ⟨800, 450⟩) wS1

/-- The branch verse of `wS2` (the verse with id `v2`). -/
def wV2 : Verse :=
  (getVerse wS2 "v2").getD baseVerse

/-- The caller-visible payload of one `addChatMessage` call together with the
environment-supplied `uuidv4()` id and `Date.now()` timestamp. -/
structure NewMessage where
  role : Role
  content : String
  msgId : String
  now : Nat
deriving DecidableEq

/-- The `ChatMessage` the store builds from one append (`messageWithMeta`). -/
def mkStoredMessage (it : NewMessage) : ChatMessage :=
  ⟨it.role, it.content, it.msgId, it.now⟩

/-- A sequence of `addChatMessage` calls against one verse. -/
def appendMessages (verseId : String) (items : List NewMessage) (s : CanvasState) : CanvasState :=
  items.foldl (fun st it => addChatMessage verseId it.role it.content it.msgId it.now st) s

/-- State holding one verse `E` with an empty chat history. -/
def sE : CanvasState :=
  { verses := [{ baseVerse with id := "E", name := "E" }], activeVerseId := none,
    selectedModelId := defaultModelId }

/-- Verse `B` with a branch-point id that matches no message of `A`. -/
def verseBdangling : Verse :=
  { verseB with branchSourceMessageId := some "gone", branches := [] }

/-- Two-verse state where the child's recorded branch point is dangling. -/
def sADangling : CanvasState :=
  { verses := [verseA, verseBdangling], activeVerseId := none,
    selectedModelId := defaultModelId }

/-- A verse with a previously cached (empty) board artifact and one user turn. -/
def verseCachedEmptyBoard : Verse :=
  { baseVerse with
      id := "V"
      name := "V"
      boardCards := some []
      chatHistory := [⟨Role.user, "hi", "m1", 1⟩] }

/-- A verse with one user turn and no cached artifacts. -/
def verseNoCache : Verse :=
  { baseVerse with
      id := "W"
      name := "W"
      chatHistory := [⟨Role.user, "hi", "m1", 1⟩] }

/-- A verse with a nonempty cached board. -/
def verseCachedBoard : Verse :=
  { baseVerse with
      id := "U"
      name := "U"
      boardCards := some [⟨"k1", "card", Column.elaborate⟩]
      chatHistory := [⟨Role.user, "hi", "m1", 1⟩] }

/-- A verse with a nonempty cached system map. -/
def verseCachedMap : Verse :=
  { baseVerse with
      id := "T"
      name := "T"
      systemMapData := some ⟨[⟨"n1", "Node", 0, 0, NodeType.service⟩], []⟩
      chatHistory := [⟨Role.user, "hi", "m1", 1⟩] }

/-! ### Basic lemmas about the store combinators -/

example : (getVerse (branchVerse "A" none (some "m2") "sB" 4 "B" "ccB" ⟨800, 450⟩ sA) "B").map
    (assembleContextMsgs (branchVerse "A" none (some "m2") "sB" 4 "B" "ccB" ⟨800, 450⟩ sA)) =
    some [msgHi, msgHello] := by decide

example : assembleContextMsgs sABC verseC = [msgHi, msgHello, msgBye] := by decide

example : assembleContext sABC verseC = "user: hi\n\nassistant: hello\n\nuser: bye\n\n" := by decide

lemma modifyVerse_length (id : String) (f : Verse → Verse) (vs : List Verse) :
    (modifyVerse id f vs).length = vs.length := by
  simp [modifyVerse]

lemma modifyVerse_id_map (id : String) (f : Verse → Verse) (hf : ∀ v, (f v).id = v.id)
    (vs : List Verse) : (modifyVerse id f vs).map Verse.id = vs.map Verse.id := by
  unfold modifyVerse
  rw [List.map_map]
  apply List.map_congr_left
  intro v _
  by_cases h : v.id = id <;> simp [h, hf]

lemma mem_modifyVerse {id : String} {f : Verse → Verse} {vs : List Verse} {w : Verse} :
    w ∈ modifyVerse id f vs ↔ ∃ v ∈ vs, w = if v.id = id then f v else v := by
  simp [modifyVerse, eq_comm]

lemma modifyVerse_not_found {id : String} {vs : List Verse} (f : Verse → Verse)
    (h : ∀ v ∈ vs, v.id ≠ id) : modifyVerse id f vs = vs := by
  unfold modifyVerse
  conv_rhs => rw [← List.map_id vs]
  apply List.map_congr_left
  intro v hv
  simp [h v hv]

lemma findVerse_eq_none {vs : List Verse} {tid : String} :
    findVerse vs tid = none ↔ ∀ v ∈ vs, v.id ≠ tid := by
  simp [findVerse, List.find?_eq_none]

lemma findVerse_some {vs : List Verse} {tid : String} {v : Verse}
    (h : findVerse vs tid = some v) : v ∈ vs ∧ v.id = tid := by
  refine ⟨List.mem_of_find?_eq_some h, ?_⟩
  have := List.find?_some h
  simpa using this

lemma findVerse_append (vs ws : List Verse) (tid : String) :
    findVerse (vs ++ ws) tid = (findVerse vs tid).or (findVerse ws tid) := by
  simp [findVerse, List.find?_append]

lemma findVerse_modifyVerse (id tid : String) (f : Verse → Verse) (hf : ∀ v, (f v).id = v.id)
    (vs : List Verse) :
    findVerse (modifyVerse id f vs) tid =
      (findVerse vs tid).map fun v => if v.id = id then f v else v := by
  induction vs with
  | nil => simp [findVerse, modifyVerse]
  | cons v t ih =>
    have hcons : modifyVerse id f (v :: t) =
        (if v.id = id then f v else v) :: modifyVerse id f t := by
      simp [modifyVerse]
    have hgid : (if v.id = id then f v else v).id = v.id := by
      by_cases h2 : v.id = id <;> simp [h2, hf]
    by_cases h : v.id = tid
    · rw [hcons, findVerse, List.find?_cons_of_pos _ (by simp only [hgid, beq_iff_eq]; exact h),
        findVerse, List.find?_cons_of_pos _ (by simp only [beq_iff_eq]; exact h)]
      simp
    · rw [hcons, findVerse, List.find?_cons_of_neg _ (by simp only [hgid, beq_iff_eq]; exact h),
        findVerse, List.find?_cons_of_neg _ (by simp only [beq_iff_eq]; exact h)]
      exact ih

lemma findVerse_unique {vs : List Verse} {tid : String} {w : Verse}
    (hnd : (vs.map Verse.id).Nodup) (hw : findVerse vs tid = some w) :
    ∀ v ∈ vs, v.id = tid → v = w := by
  intro v hv hvid
  obtain ⟨hwmem, hwid⟩ := findVerse_some hw
  exact List.inj_on_of_nodup_map hnd hv hwmem (hvid.trans hwid.symm)

/-! ### Invariant preservation -/

lemma inv_map {s s' : CanvasState} (hInv : Inv s) {g : Verse → Verse}
    (hs' : s'.verses = s.verses.map g)
    (hid : ∀ v, (g v).id = v.id)
    (hpar : ∀ v, (g v).parentId = v.parentId)
    (hbr : ∀ v, (g v).branches = v.branches)
    (hNE : ∀ v ∈ s.verses, v.components ≠ [] → (g v).components ≠ [])
    (hND : ∀ v ∈ s.verses, (v.components.map VerseComponent.id).Nodup →
      ((g v).components.map VerseComponent.id).Nodup) :
    Inv s' := by
  constructor
  · rw [hs', List.map_map]
    have : (Verse.id ∘ g) = Verse.id := funext hid
    rw [this]
    exact hInv.idsNodup
  · intro p hp x hx
    rw [hs'] at hp
    obtain ⟨p0, hp0, rfl⟩ := List.mem_map.mp hp
    rw [hbr p0] at hx
    obtain ⟨c, hc, hcid, hcpar⟩ := hInv.branchesSound p0 hp0 x hx
    refine ⟨g c, ?_, ?_, ?_⟩
    · rw [hs']; exact List.mem_map.mpr ⟨c, hc, rfl⟩
    · rw [hid c]; exact hcid
    · rw [hpar c, hid p0]; exact hcpar
  · intro c hc p hp hcp
    rw [hs'] at hc hp
    obtain ⟨c0, hc0, rfl⟩ := List.mem_map.mp hc
    obtain ⟨p0, hp0, rfl⟩ := List.mem_map.mp hp
    rw [hpar c0, hid p0] at hcp
    rw [hbr p0, hid c0]
    exact hInv.parentLinked c0 hc0 p0 hp0 hcp
  · intro v hv
    rw [hs'] at hv
    obtain ⟨v0, hv0, rfl⟩ := List.mem_map.mp hv
    exact hNE v0 hv0 (hInv.compsNonempty v0 hv0)
  · intro v hv
    rw [hs'] at hv
    obtain ⟨v0, hv0, rfl⟩ := List.mem_map.mp hv
    exact hND v0 hv0 (hInv.compIdsNodup v0 hv0)

lemma inv_modify {s s' : CanvasState} (hInv : Inv s) {id : String} {f : Verse → Verse}
    (hs' : s'.verses = modifyVerse id f s.verses)
    (hid : ∀ v, (f v).id = v.id)
    (hpar : ∀ v, (f v).parentId = v.parentId)
    (hbr : ∀ v, (f v).branches = v.branches)
    (hNE : ∀ v ∈ s.verses, v.id = id → v.components ≠ [] → (f v).components ≠ [])
    (hND : ∀ v ∈ s.verses, v.id = id → (v.components.map VerseComponent.id).Nodup →
      ((f v).components.map VerseComponent.id).Nodup) :
    Inv s' := by
  refine inv_map hInv (g := fun v => if v.id = id then f v else v) hs' ?_ ?_ ?_ ?_ ?_
  · intro v; by_cases h : v.id = id <;> simp [h, hid]
  · intro v; by_cases h : v.id = id <;> simp [h, hpar]
  · intro v; by_cases h : v.id = id <;> simp [h, hbr]
  · intro v hv hne
    by_cases h : v.id = id
    · simpa [h] using hNE v hv h hne
    · simpa [h] using hne
  · intro v hv hnd
    by_cases h : v.id = id
    · simpa [h] using hND v hv h hnd
    · simpa [h] using hnd

lemma filter_comp_ne_nil {comps : List VerseComponent} (h2 : 2 ≤ comps.length)
    (hnd : (comps.map VerseComponent.id).Nodup) (cid : String) :
    comps.filter (fun c => c.id != cid) ≠ [] := by
  match comps, h2 with
  | a :: b :: t, _ =>
    intro hnil
    rw [List.filter_eq_nil_iff] at hnil
    have ha : a.id = cid := by simpa using hnil a (by simp)
    have hb : b.id = cid := by simpa using hnil b (by simp)
    have : a.id ≠ b.id := by
      simp only [List.map_cons, List.nodup_cons, List.mem_cons, not_or] at hnd
      exact hnd.1.1
    exact this (ha.trans hb.symm)

lemma inv_append_child {s s' : CanvasState} (hInv : Inv s) (newVerse : Verse)
    (g : Verse → Verse)
    (hglist : s'.verses = s.verses.map g ++ [newVerse])
    (hgid : ∀ v, (g v).id = v.id)
    (hgpar : ∀ v, (g v).parentId = v.parentId)
    (hgcomp : ∀ v, (g v).components = v.components)
    (hgbr : ∀ v, ((g v).branches = v.branches ++ [newVerse.id] ∧ newVerse.parentId = some v.id) ∨
      ((g v).branches = v.branches ∧ newVerse.parentId ≠ some v.id))
    (hfresh : FreshVerseId s newVerse.id)
    (hselfpar : newVerse.parentId ≠ some newVerse.id)
    (hbr : newVerse.branches = [])
    (hne : newVerse.components ≠ [])
    (hnd : (newVerse.components.map VerseComponent.id).Nodup) :
    Inv s' := by
  constructor
  · rw [hglist, List.map_append, List.map_map]
    have : (Verse.id ∘ g) = Verse.id := funext hgid
    rw [this, List.nodup_append]
    refine ⟨hInv.idsNodup, List.nodup_singleton _, ?_⟩
    intro x hx hx2
    obtain ⟨v, hv, rfl⟩ := List.mem_map.mp hx
    exact (hfresh v hv).1 (List.mem_singleton.mp hx2)
  · intro p hp x hx
    rw [hglist] at hp
    rcases List.mem_append.mp hp with hp | hp
    · obtain ⟨p0, hp0, rfl⟩ := List.mem_map.mp hp
      have hxcases : x ∈ p0.branches ∨ (x = newVerse.id ∧ newVerse.parentId = some p0.id) := by
        rcases hgbr p0 with ⟨h, hcond⟩ | ⟨h, _⟩
        · rw [h] at hx
          rcases List.mem_append.mp hx with hx | hx
          · exact Or.inl hx
          · exact Or.inr ⟨List.mem_singleton.mp hx, hcond⟩
        · rw [h] at hx; exact Or.inl hx
      rcases hxcases with hx0 | ⟨rfl, hcond⟩
      · obtain ⟨c, hc, hcid, hcpar⟩ := hInv.branchesSound p0 hp0 x hx0
        refine ⟨g c, ?_, ?_, ?_⟩
        · rw [hglist]
          exact List.mem_append.mpr (Or.inl (List.mem_map.mpr ⟨c, hc, rfl⟩))
        · rw [hgid c]; exact hcid
        · rw [hgpar c, hgid p0]; exact hcpar
      · refine ⟨newVerse, ?_, rfl, ?_⟩
        · rw [hglist]
          exact List.mem_append.mpr (Or.inr (List.mem_singleton.mpr rfl))
        · rw [hgid p0]; exact hcond
    · have hp' : p = newVerse := List.mem_singleton.mp hp
      subst hp'
      rw [hbr] at hx
      exact absurd hx (List.not_mem_nil x)
  · intro c hc p hp hcp
    rw [hglist] at hc hp
    rcases List.mem_append.mp hc with hc | hc
    · obtain ⟨c0, hc0, rfl⟩ := List.mem_map.mp hc
      rw [hgpar c0] at hcp
      rcases List.mem_append.mp hp with hp | hp
      · obtain ⟨p0, hp0, rfl⟩ := List.mem_map.mp hp
        rw [hgid p0] at hcp
        have hcount := hInv.parentLinked c0 hc0 p0 hp0 hcp
        have hcne : c0.id ≠ newVerse.id := (hfresh c0 hc0).1
        rw [hgid c0]
        rcases hgbr p0 with ⟨h, _⟩ | ⟨h, _⟩
        · rw [h, List.count_append]
          simp only [List.count_singleton]
          rw [hcount]
          simp [Ne.symm hcne]
        · rw [h]; exact hcount
      · have hp' : p = newVerse := List.mem_singleton.mp hp
        rw [hp'] at hcp
        exact absurd hcp (hfresh c0 hc0).2.1
    · have hc' : c = newVerse := List.mem_singleton.mp hc
      rw [hc'] at hcp ⊢
      rcases List.mem_append.mp hp with hp | hp
      · obtain ⟨p0, hp0, rfl⟩ := List.mem_map.mp hp
        rw [hgid p0] at hcp
        rcases hgbr p0 with ⟨h, _⟩ | ⟨h, hcond⟩
        · rw [h, List.count_append]
          have hnotin : newVerse.id ∉ p0.branches := (hfresh p0 hp0).2.2
          rw [List.count_eq_zero.mpr hnotin]
          simp
        · exact absurd hcp hcond
      · have hp' : p = newVerse := List.mem_singleton.mp hp
        rw [hp'] at hcp ⊢
        exact absurd hcp hselfpar
  · intro v hv
    rw [hglist] at hv
    rcases List.mem_append.mp hv with hv | hv
    · obtain ⟨v0, hv0, rfl⟩ := List.mem_map.mp hv
      rw [hgcomp v0]
      exact hInv.compsNonempty v0 hv0
    · rw [List.mem_singleton.mp hv]
      exact hne
  · intro v hv
    rw [hglist] at hv
    rcases List.mem_append.mp hv with hv | hv
    · obtain ⟨v0, hv0, rfl⟩ := List.mem_map.mp hv
      rw [hgcomp v0]
      exact hInv.compIdsNodup v0 hv0
    · rw [List.mem_singleton.mp hv]
      exact hnd

lemma inv_removeVerse (id : String) (s : CanvasState) (hInv : Inv s) :
    Inv (removeVerse id s) := by
  unfold removeVerse
  rw [show findVerse s.verses id = findVerse s.verses id from rfl]
  cases hfind : findVerse s.verses id with
  | none => exact hInv
  | some w =>
    obtain ⟨hwmem, hwid⟩ := findVerse_some hfind
    set g : Verse → Verse := fun v =>
      if w.parentId = some v.id then
        { v with branches := v.branches.filter (fun branchId => branchId != id) }
      else v with hg
    have hgid : ∀ v, (g v).id = v.id := by
      intro v; by_cases h : w.parentId = some v.id <;> simp [hg, h]
    have hgpar : ∀ v, (g v).parentId = v.parentId := by
      intro v; by_cases h : w.parentId = some v.id <;> simp [hg, h]
    have hgcomp : ∀ v, (g v).components = v.components := by
      intro v; by_cases h : w.parentId = some v.id <;> simp [hg, h]
    have hmem : ∀ {v' : Verse},
        v' ∈ (s.verses.map g).filter (fun v => v.id != id) ↔
        ∃ v ∈ s.verses, v' = g v ∧ v.id ≠ id := by
      intro v'
      rw [List.mem_filter]
      constructor
      · rintro ⟨hmem1, hq⟩
        obtain ⟨v, hv, rfl⟩ := List.mem_map.mp hmem1
        rw [hgid v] at hq
        exact ⟨v, hv, rfl, by simpa using hq⟩
      · rintro ⟨v, hv, rfl, hne⟩
        exact ⟨List.mem_map.mpr ⟨v, hv, rfl⟩, by simpa [hgid v] using hne⟩
    constructor
    · show (((s.verses.map g).filter (fun v => v.id != id)).map Verse.id).Nodup
      have hsub : ((s.verses.map g).filter (fun v => v.id != id)).Sublist (s.verses.map g) :=
        List.filter_sublist _
      have hsub2 := hsub.map Verse.id
      have heq : (s.verses.map g).map Verse.id = s.verses.map Verse.id := by
        rw [List.map_map]
        exact congrArg (s.verses.map ·) (funext hgid)
      rw [heq] at hsub2
      exact hInv.idsNodup.sublist hsub2
    · intro p hp x hx
      obtain ⟨p0, hp0, rfl, hpne⟩ := hmem.mp hp
      have hx0 : x ∈ p0.branches ∧ x ≠ id := by
        by_cases hc : w.parentId = some p0.id
        · rw [hg] at hx
          simp only [hc, if_pos] at hx
          have := List.mem_filter.mp hx
          exact ⟨this.1, by simpa using this.2⟩
        · rw [hg] at hx
          simp only [hc, if_neg, not_false_iff] at hx
          refine ⟨hx, ?_⟩
          intro hxid
          obtain ⟨c, hcmem, hcid, hcpar⟩ := hInv.branchesSound p0 hp0 x hx
          have hcw : c = w :=
            List.inj_on_of_nodup_map hInv.idsNodup hcmem hwmem (by rw [hcid, hxid, hwid])
          rw [hcw] at hcpar
          exact hc hcpar
      obtain ⟨c, hcmem, hcid, hcpar⟩ := hInv.branchesSound p0 hp0 x hx0.1
      refine ⟨g c, hmem.mpr ⟨c, hcmem, rfl, by rw [hcid]; exact hx0.2⟩, ?_, ?_⟩
      · rw [hgid c]; exact hcid
      · rw [hgpar c, hgid p0]; exact hcpar
    · intro c hc p hp hcp
      obtain ⟨c0, hc0, rfl, hcne⟩ := hmem.mp hc
      obtain ⟨p0, hp0, rfl, hpne⟩ := hmem.mp hp
      rw [hgpar c0, hgid p0] at hcp
      have hcount := hInv.parentLinked c0 hc0 p0 hp0 hcp
      rw [hgid c0]
      by_cases hc2 : w.parentId = some p0.id
      · rw [hg]
        simp only [hc2, if_pos]
        rw [List.count_filter (by simpa using hcne)]
        exact hcount
      · rw [hg]
        simp only [hc2, if_neg, not_false_iff]
        exact hcount
    · intro v hv
      obtain ⟨v0, hv0, rfl, _⟩ := hmem.mp hv
      rw [hgcomp v0]
      exact hInv.compsNonempty v0 hv0
    · intro v hv
      obtain ⟨v0, hv0, rfl, _⟩ := hmem.mp hv
      rw [hgcomp v0]
      exact hInv.compIdsNodup v0 hv0

lemma inv_applyOp (o : Op) (s : CanvasState) (hInv : Inv s) (hF : OpFresh o s) :
    Inv (applyOp o s) := by
  cases o with
  | addVerse position parentId modelId verseId chatComponentId adjustedSize =>
    obtain ⟨hfresh, hselfp⟩ := hF
    show Inv (addVerse position parentId modelId verseId chatComponentId adjustedSize s)
    cases parentId with
    | none =>
      refine inv_append_child hInv _ (id : Verse → Verse) (by rw [List.map_id]; exact rfl)
        (fun v => rfl) (fun v => rfl) (fun v => rfl) ?_ hfresh ?_ rfl (by simp) (by simp)
      · intro v
        exact Or.inr ⟨rfl, by simp⟩
      · simp
    | some pid =>
      refine inv_append_child hInv _
        (fun v => if v.id = pid then { v with branches := v.branches ++ [verseId] } else v)
        rfl ?_ ?_ ?_ ?_ hfresh ?_ rfl (by simp) (by simp)
      · intro v; by_cases h : v.id = pid <;> simp [h]
      · intro v; by_cases h : v.id = pid <;> simp [h]
      · intro v; by_cases h : v.id = pid <;> simp [h]
      · intro v
        by_cases h : v.id = pid
        · refine Or.inl ⟨by simp [h], ?_⟩
          show some pid = some v.id
          rw [h]
        · refine Or.inr ⟨by simp [h], ?_⟩
          show some pid ≠ some v.id
          intro hh
          exact h (Option.some_inj.mp hh).symm
      · simpa using hselfp
  | branchVerse id modelId messageId sysMsgId now verseId chatComponentId adjustedSize =>
    have hfresh : FreshVerseId s verseId := hF
    show Inv (branchVerse id modelId messageId sysMsgId now verseId chatComponentId adjustedSize s)
    unfold branchVerse
    cases hfind : findVerse s.verses id with
    | none => exact hInv
    | some parentVerse =>
      obtain ⟨hpmem, hpid⟩ := findVerse_some hfind
      refine inv_append_child hInv _
        (fun v => if v.id = id then { v with branches := v.branches ++ [verseId] } else v)
        rfl ?_ ?_ ?_ ?_ hfresh ?_ rfl (by simp) (by simp)
      · intro v; by_cases h : v.id = id <;> simp [h]
      · intro v; by_cases h : v.id = id <;> simp [h]
      · intro v; by_cases h : v.id = id <;> simp [h]
      · intro v
        by_cases h : v.id = id
        · refine Or.inl ⟨by simp [h], ?_⟩
          show some parentVerse.id = some v.id
          rw [hpid, h]
        · refine Or.inr ⟨by simp [h], ?_⟩
          show some parentVerse.id ≠ some v.id
          rw [hpid]
          intro hh
          exact h (Option.some_inj.mp hh).symm
      · have : parentVerse.id ≠ verseId := (hfresh parentVerse hpmem).1
        simpa using this
  | removeVerse id => exact inv_removeVerse id s hInv
  | updateVersePosition id position =>
    exact inv_modify hInv rfl (fun v => rfl) (fun v => rfl) (fun v => rfl)
      (fun v _ _ h => h) (fun v _ _ h => h)
  | updateVerseSize id size =>
    exact inv_modify hInv rfl (fun v => rfl) (fun v => rfl) (fun v => rfl)
      (fun v _ _ h => h) (fun v _ _ h => h)
  | updateVerseName id name =>
    exact inv_modify hInv rfl (fun v => rfl) (fun v => rfl) (fun v => rfl)
      (fun v _ _ h => h) (fun v _ _ h => h)
  | updateVerseModel id modelId =>
    exact inv_modify hInv rfl (fun v => rfl) (fun v => rfl) (fun v => rfl)
      (fun v _ _ h => h) (fun v _ _ h => h)
  | updateSystemPrompt verseId systemPrompt =>
    exact inv_modify hInv rfl (fun v => rfl) (fun v => rfl) (fun v => rfl)
      (fun v _ _ h => h) (fun v _ _ h => h)
  | setActiveVerse id =>
    show Inv (setActiveVerse id s)
    unfold setActiveVerse
    by_cases h : id = s.activeVerseId
    · simp only [h, if_pos]
      exact ⟨hInv.idsNodup, hInv.branchesSound, hInv.parentLinked,
        hInv.compsNonempty, hInv.compIdsNodup⟩
    · simp only [h, if_neg, not_false_iff]
      refine inv_map hInv rfl ?_ ?_ ?_ ?_ ?_
      · intro v; by_cases h2 : some v.id = id <;> simp [h2]
      · intro v; by_cases h2 : some v.id = id <;> simp [h2]
      · intro v; by_cases h2 : some v.id = id <;> simp [h2]
      · intro v _ hne
        by_cases h2 : some v.id = id <;> simpa [h2] using hne
      · intro v _ hnd
        by_cases h2 : some v.id = id <;> simpa [h2] using hnd
  | addChatMessage verseId role content msgId now =>
    exact inv_modify hInv rfl (fun v => rfl) (fun v => rfl) (fun v => rfl)
      (fun v _ _ h => h) (fun v _ _ h => h)
  | updateBoardCards verseId cards =>
    exact inv_modify hInv rfl (fun v => rfl) (fun v => rfl) (fun v => rfl)
      (fun v _ _ h => h) (fun v _ _ h => h)
  | updateCardColumn verseId cardId newColumn =>
    show Inv (updateCardColumn verseId cardId newColumn s)
    cases hfind : findVerse s.verses verseId with
    | none =>
      simp only [updateCardColumn, hfind]
      exact hInv
    | some verse =>
      cases hbc : verse.boardCards with
      | none =>
        simp only [updateCardColumn, hfind, hbc]
        exact hInv
      | some cards =>
        simp only [updateCardColumn, hfind, hbc]
        exact inv_modify hInv rfl (fun v => rfl) (fun v => rfl) (fun v => rfl)
          (fun v _ _ h => h) (fun v _ _ h => h)
  | updateSystemMapData verseId data =>
    exact inv_modify hInv rfl (fun v => rfl) (fun v => rfl) (fun v => rfl)
      (fun v _ _ h => h) (fun v _ _ h => h)
  | updateSystemMapNode verseId nodeId x y =>
    show Inv (updateSystemMapNode verseId nodeId x y s)
    cases hfind : findVerse s.verses verseId with
    | none =>
      simp only [updateSystemMapNode, hfind]
      exact hInv
    | some verse =>
      cases hsm : verse.systemMapData with
      | none =>
        simp only [updateSystemMapNode, hfind, hsm]
        exact hInv
      | some smd =>
        simp only [updateSystemMapNode, hfind, hsm]
        exact inv_modify hInv rfl (fun v => rfl) (fun v => rfl) (fun v => rfl)
          (fun v _ _ h => h) (fun v _ _ h => h)
  | updateSystemMapNodeLabel verseId nodeId label =>
    show Inv (updateSystemMapNodeLabel verseId nodeId label s)
    cases hfind : findVerse s.verses verseId with
    | none =>
      simp only [updateSystemMapNodeLabel, hfind]
      exact hInv
    | some verse =>
      cases hsm : verse.systemMapData with
      | none =>
        simp only [updateSystemMapNodeLabel, hfind, hsm]
        exact hInv
      | some smd =>
        simp only [updateSystemMapNodeLabel, hfind, hsm]
        exact inv_modify hInv rfl (fun v => rfl) (fun v => rfl) (fun v => rfl)
          (fun v _ _ h => h) (fun v _ _ h => h)
  | updateSystemMapEdgeLabel verseId edgeId label =>
    show Inv (updateSystemMapEdgeLabel verseId edgeId label s)
    cases hfind : findVerse s.verses verseId with
    | none =>
      simp only [updateSystemMapEdgeLabel, hfind]
      exact hInv
    | some verse =>
      cases hsm : verse.systemMapData with
      | none =>
        simp only [updateSystemMapEdgeLabel, hfind, hsm]
        exact hInv
      | some smd =>
        simp only [updateSystemMapEdgeLabel, hfind, hsm]
        exact inv_modify hInv rfl (fun v => rfl) (fun v => rfl) (fun v => rfl)
          (fun v _ _ h => h) (fun v _ _ h => h)
  | addComponent verseId ctype position compId =>
    have hfreshC : FreshComponentId s compId := hF
    show Inv (addComponent verseId ctype position compId s)
    unfold addComponent
    cases hfind : findVerse s.verses verseId with
    | none => exact hInv
    | some verse =>
      refine inv_modify hInv rfl (fun v => rfl) (fun v => rfl) (fun v => rfl)
        (fun v _ _ _ => by simp) ?_
      intro v hv _ hnd
      simp only [List.map_append, List.map_cons, List.map_nil]
      rw [List.nodup_append]
      refine ⟨hnd, List.nodup_singleton _, ?_⟩
      intro a ha ha2
      obtain ⟨c, hc, rfl⟩ := List.mem_map.mp ha
      exact hfreshC v hv c hc (List.mem_singleton.mp ha2)
  | removeComponent verseId componentId =>
    show Inv (removeComponent verseId componentId s)
    unfold removeComponent
    cases hfind : findVerse s.verses verseId with
    | none => exact hInv
    | some verse =>
      by_cases hlen : verse.components.length ≤ 1
      · simp only [hlen, if_pos]
        exact ⟨hInv.idsNodup, hInv.branchesSound, hInv.parentLinked,
          hInv.compsNonempty, hInv.compIdsNodup⟩
      · simp only [hlen, if_neg, not_false_iff]
        refine inv_modify hInv rfl (fun v => rfl) (fun v => rfl) (fun v => rfl) ?_ ?_
        · intro v hv hvid _
          have hveq : v = verse := findVerse_unique hInv.idsNodup hfind v hv hvid
          have h2 : 2 ≤ v.components.length := by
            rw [hveq]; omega
          exact filter_comp_ne_nil h2 (hInv.compIdsNodup v hv) componentId
        · intro v _ _ hnd
          have hsub : ((v.components.filter (fun comp => comp.id != componentId)).map
              VerseComponent.id).Sublist (v.components.map VerseComponent.id) :=
            (List.filter_sublist _).map VerseComponent.id
          exact hnd.sublist hsub
  | updateComponentPosition verseId componentId position =>
    refine inv_modify hInv rfl (fun v => rfl) (fun v => rfl) (fun v => rfl) ?_ ?_
    · intro v _ _ hne
      simpa using hne
    · intro v _ _ hnd
      have : ((v.components.map (fun comp =>
          if comp.id = componentId then { comp with position := position } else comp)).map
          VerseComponent.id) = v.components.map VerseComponent.id := by
        rw [List.map_map]
        apply List.map_congr_left
        intro c _
        by_cases h : c.id = componentId <;> simp [h]
      rw [this]
      exact hnd
  | updateComponentSize verseId componentId size =>
    refine inv_modify hInv rfl (fun v => rfl) (fun v => rfl) (fun v => rfl) ?_ ?_
    · intro v _ _ hne
      simpa using hne
    · intro v _ _ hnd
      have : ((v.components.map (fun comp =>
          if comp.id = componentId then { comp with size := size } else comp)).map
          VerseComponent.id) = v.components.map VerseComponent.id := by
        rw [List.map_map]
        apply List.map_congr_left
        intro c _
        by_cases h : c.id = componentId <;> simp [h]
      rw [this]
      exact hnd
  | setActiveComponent verseId componentId =>
    show Inv (setActiveComponent verseId componentId s)
    unfold setActiveComponent
    cases hfind : findVerse s.verses verseId with
    | none => exact hInv
    | some verse =>
      refine inv_modify hInv rfl (fun v => rfl) (fun v => rfl) (fun v => rfl) ?_ ?_
      · intro v _ _ hne
        simpa using hne
      · intro v _ _ hnd
        have : ((v.components.map (fun comp =>
            if comp.id = componentId then
              { comp with zIndex := maxCompZIndex verse.components + 1 } else comp)).map
            VerseComponent.id) = v.components.map VerseComponent.id := by
          rw [List.map_map]
          apply List.map_congr_left
          intro c _
          by_cases h : c.id = componentId <;> simp [h]
        rw [this]
        exact hnd

/-- Every reachable store state satisfies the structural invariant. -/
lemma reach_inv {s : CanvasState} (h : Reach s) : Inv s := by
  induction h with
  | init =>
    refine ⟨?_, ?_, ?_, ?_, ?_⟩ <;> simp [initialState]
  | step s o _ hF ih => exact inv_applyOp o s ih hF

/-! ### Witness fixtures built by store operations -/

lemma opFresh_w1 : OpFresh (Op.addVerse ⟨0, 0⟩ none none "v1" "c1" ⟨800, 450⟩) initialState := by
  show FreshVerseId initialState "v1" ∧ (none : Option String) ≠ some "v1"
  unfold FreshVerseId
  decide

lemma opFresh_w2 : OpFresh (Op.branchVerse "v1" none none "sys1" 10 "v2" "c2" ⟨800, 450⟩) wS1 := by
  show FreshVerseId wS1 "v2"
  unfold FreshVerseId
  decide

lemma reach_wS1 : Reach wS1 := Reach.step initialState _ Reach.init opFresh_w1

lemma reach_wS2 : Reach wS2 := Reach.step wS1 _ reach_wS1 opFresh_w2

/-- C5: after every sequence of store operations (with fresh generated ids),
a verse's id occurs in the branches list of the verse named by its `parentId`
exactly when that parent is present, and then exactly once. -/
theorem c5_branches_inverse (s : CanvasState) (h : Reach s) :
    ∀ c ∈ s.verses,
      ((∃ p ∈ s.verses, c.parentId = some p.id ∧ c.id ∈ p.branches) ↔
        (∃ p ∈ s.verses, c.parentId = some p.id)) ∧
      (∀ p ∈ s.verses, c.parentId = some p.id → p.branches.count c.id = 1) := by
  have hInv := reach_inv h
  intro c hc
  refine ⟨⟨?_, ?_⟩, ?_⟩
  · rintro ⟨p, hp, hpar, _⟩
    exact ⟨p, hp, hpar⟩
  · rintro ⟨p, hp, hpar⟩
    refine ⟨p, hp, hpar, ?_⟩
    have h1 := hInv.parentLinked c hc p hp hpar
    by_contra hmem
    rw [List.count_eq_zero.mpr hmem] at h1
    exact one_ne_zero h1.symm
  · intro p hp hpar
    exact hInv.parentLinked c hc p hp hpar

set_option maxRecDepth 4096 in
/-- C5 witness: the invariant instantiated at the branch verse of the concrete
reachable state `wS2` (a root verse and one branch). -/
theorem c5_branches_inverse_witness :
    wV2 ∈ wS2.verses ∧
    (((∃ p ∈ wS2.verses, wV2.parentId = some p.id ∧ wV2.id ∈ p.branches) ↔
        (∃ p ∈ wS2.verses, wV2.parentId = some p.id)) ∧
      (∀ p ∈ wS2.verses, wV2.parentId = some p.id → p.branches.count wV2.id = 1)) :=
  ⟨by decide, c5_branches_inverse wS2 reach_wS2 wV2 (by decide)⟩

/-- C10: in every reachable state each verse keeps at least one component, and
`removeComponent` on a verse with exactly one component is a silent no-op, so
the last component can never be removed through the store API. -/
theorem c10_last_component_kept (s : CanvasState) (h : Reach s) :
    (∀ v ∈ s.verses, v.components ≠ []) ∧
    (∀ verseId componentId : String, ∀ v ∈ s.verses, v.id = verseId →
      v.components.length = 1 → removeComponent verseId componentId s = s) := by
  have hInv := reach_inv h
  refine ⟨hInv.compsNonempty, ?_⟩
  intro verseId componentId v hv hvid hlen
  cases hfind : findVerse s.verses verseId with
  | none => simp only [removeComponent, hfind]
  | some w =>
    have hveq : v = w := findVerse_unique hInv.idsNodup hfind v hv hvid
    have hlen2 : w.components.length ≤ 1 := by rw [← hveq, hlen]
    simp only [removeComponent, hfind, if_pos hlen2]

/-- C10 witness: instantiated at the concrete reachable state `wS2`. -/
theorem c10_last_component_kept_witness :
    (∀ v ∈ wS2.verses, v.components ≠ []) ∧
    (∀ verseId componentId : String, ∀ v ∈ wS2.verses, v.id = verseId →
      v.components.length = 1 → removeComponent verseId componentId wS2 = wS2) :=
  c10_last_component_kept wS2 reach_wS2

/-! ### Appending messages (C8) -/

lemma getVerse_addChatMessage (verseId : String) (role : Role) (content msgId : String)
    (now : Nat) (s : CanvasState) (tid : String) :
    getVerse (addChatMessage verseId role content msgId now s) tid =
      (getVerse s tid).map fun v =>
        if v.id = verseId then { v with chatHistory := v.chatHistory ++ [⟨role, content, msgId, now⟩] }
        else v := by
  unfold getVerse addChatMessage
  exact findVerse_modifyVerse verseId tid
    (fun v => { v with chatHistory := v.chatHistory ++ [⟨role, content, msgId, now⟩] })
    (fun v => rfl) s.verses

lemma getVerse_appendMessages (verseId : String) (items : List NewMessage) (s : CanvasState) :
    getVerse (appendMessages verseId items s) verseId =
      (getVerse s verseId).map
        fun v => { v with chatHistory := v.chatHistory ++ items.map mkStoredMessage } := by
  induction items generalizing s with
  | nil =>
    cases h : getVerse s verseId <;> simp [appendMessages, h]
  | cons it its ih =>
    rw [show appendMessages verseId (it :: its) s =
      appendMessages verseId its (addChatMessage verseId it.role it.content it.msgId it.now s)
      from rfl]
    rw [ih, getVerse_addChatMessage]
    cases h : getVerse s verseId with
    | none => simp
    | some v =>
      have hvid : v.id = verseId := (findVerse_some h).2
      simp [hvid, mkStoredMessage]

/-- C8: appending messages to a verse with an empty history yields a history of
the same length as the appended batch, with strictly increasing timestamps and
unique ids whenever the environment-supplied timestamps increase and the
supplied ids are distinct (`Date.now()` and `uuidv4()`); each intermediate
history is a prefix of the final one, so no append mutates earlier entries. -/
theorem c8_append_history (s : CanvasState) (verseId : String) (v : Verse)
    (items : List NewMessage)
    (hv : getVerse s verseId = some v)
    (hempty : v.chatHistory = [])
    (hids : (items.map NewMessage.msgId).Nodup)
    (hts : items.Pairwise fun a b => a.now < b.now) :
    ∃ v', getVerse (appendMessages verseId items s) verseId = some v' ∧
      v'.chatHistory = items.map mkStoredMessage ∧
      v'.chatHistory.length = items.length ∧
      v'.chatHistory.Pairwise (fun a b => a.timestamp < b.timestamp) ∧
      (v'.chatHistory.map ChatMessage.id).Nodup ∧
      ∀ pre post, items = pre ++ post →
        ∃ v'', getVerse (appendMessages verseId pre s) verseId = some v'' ∧
          v'.chatHistory = v''.chatHistory ++ post.map mkStoredMessage := by
  refine ⟨{ v with chatHistory := v.chatHistory ++ items.map mkStoredMessage }, ?_, ?_, ?_, ?_, ?_, ?_⟩
  · rw [getVerse_appendMessages, hv]
    rfl
  · simp [hempty]
  · simp [hempty]
  · simp only [hempty, List.nil_append]
    rw [List.pairwise_map]
    exact hts
  · simp only [hempty, List.nil_append]
    rw [List.map_map]
    exact hids
  · intro pre post hsplit
    refine ⟨{ v with chatHistory := v.chatHistory ++ pre.map mkStoredMessage }, ?_, ?_⟩
    · rw [getVerse_appendMessages, hv]
      rfl
    · simp [hsplit]

/-- C8 witness: two concrete appends against the empty-history verse `E`. -/
theorem c8_append_history_witness :
    ∃ v', getVerse (appendMessages "E"
        [⟨Role.user, "a", "i1", 1⟩, ⟨Role.assistant, "b", "i2", 2⟩] sE) "E" = some v' ∧
      v'.chatHistory = [⟨Role.user, "a", "i1", 1⟩, ⟨Role.assistant, "b", "i2", 2⟩].map mkStoredMessage ∧
      v'.chatHistory.length = 2 ∧
      v'.chatHistory.Pairwise (fun a b => a.timestamp < b.timestamp) ∧
      (v'.chatHistory.map ChatMessage.id).Nodup ∧
      ∀ pre post, ([⟨Role.user, "a", "i1", 1⟩, ⟨Role.assistant, "b", "i2", 2⟩] :
          List NewMessage) = pre ++ post →
        ∃ v'', getVerse (appendMessages "E" pre sE) "E" = some v'' ∧
          v'.chatHistory = v''.chatHistory ++ post.map mkStoredMessage :=
  c8_append_history sE "E" { baseVerse with id := "E", name := "E" }
    [⟨Role.user, "a", "i1", 1⟩, ⟨Role.assistant, "b", "i2", 2⟩]
    (by decide) (by decide) (by decide) (by decide)

/-! ### Branch creation (C6, C3, C7) -/

lemma findVerse_singleton {v : Verse} {tid : String} (h : v.id = tid) :
    findVerse [v] tid = some v := by
  unfold findVerse
  rw [List.find?_cons_of_pos _ (by simp [h])]

lemma getVerse_append_new {s' : CanvasState} {X : List Verse} {nv : Verse}
    (hs' : s'.verses = X ++ [nv]) (hX : ∀ v ∈ X, v.id ≠ nv.id)
    (tid : String) (htid : nv.id = tid) :
    getVerse s' tid = some nv := by
  unfold getVerse
  rw [hs', findVerse_append, findVerse_eq_none.mpr (fun v hv => htid ▸ hX v hv)]
  exact findVerse_singleton htid

lemma branchVerse_spec (s : CanvasState) {id : String} {parent : Verse}
    (hfind : getVerse s id = some parent)
    (modelId messageId : Option String) (sysMsgId : String) (now : Nat)
    (verseId chatComponentId : String) (adjustedSize : Size)
    (hfresh : ∀ v ∈ s.verses, v.id ≠ verseId) :
    ∃ child,
      getVerse (branchVerse id modelId messageId sysMsgId now verseId chatComponentId
        adjustedSize s) verseId = some child ∧
      child.id = verseId ∧
      child.parentId = some parent.id ∧
      child.branchSourceMessageId = messageId ∧
      child.chatHistory = [⟨Role.system,
        (match messageId with
          | some _ => messageBranchSystemContent
          | none => verseBranchSystemContent), sysMsgId, now⟩] ∧
      (∀ mid, messageId = some mid →
        child.name = "Branch from \"" ++
          (match parent.chatHistory.find? (fun msg => msg.id == mid) with
            | some sourceMessage =>
              sourceMessage.content.take 20 ++
                (if sourceMessage.content.length > 20 then "..." else "")
            | none => "specific message") ++
          "\" (" ++ strOr parent.name (parent.id.take 4) ++ ")") ∧
      (branchVerse id modelId messageId sysMsgId now verseId chatComponentId
        adjustedSize s).verses.length = s.verses.length + 1 ∧
      getVerse (branchVerse id modelId messageId sysMsgId now verseId chatComponentId
        adjustedSize s) id = some { parent with branches := parent.branches ++ [verseId] } := by
  have hfind' : findVerse s.verses id = some parent := hfind
  obtain ⟨hpmem, hpid⟩ := findVerse_some hfind'
  have hnone : findVerse (modifyVerse id
      (fun v => { v with branches := v.branches ++ [verseId] }) s.verses) verseId = none := by
    rw [findVerse_modifyVerse id verseId
        (fun v => { v with branches := v.branches ++ [verseId] }) (fun v => rfl) s.verses,
      findVerse_eq_none.mpr hfresh]
    rfl
  have hmodfind : findVerse (modifyVerse id
      (fun v => { v with branches := v.branches ++ [verseId] }) s.verses) id =
      some { parent with branches := parent.branches ++ [verseId] } := by
    rw [findVerse_modifyVerse id id
        (fun v => { v with branches := v.branches ++ [verseId] }) (fun v => rfl) s.verses, hfind']
    simp [hpid]
  unfold branchVerse
  rw [hfind']
  refine ⟨_, getVerse_append_new rfl ?_ verseId rfl, ?_, ?_, ?_, ?_, ?_, ?_, ?_⟩
  · intro v hv hh
    obtain ⟨v0, hv0, rfl⟩ := mem_modifyVerse.mp hv
    refine hfresh v0 hv0 ?_
    by_cases h : v0.id = id
    · simpa [h] using hh
    · simpa [h] using hh
  · rfl
  · rfl
  · rfl
  · rfl
  · intro mid hmid
    subst hmid
    rfl
  · show (_ ++ [_] : List Verse).length = _
    simp [modifyVerse_length]
  · show findVerse _ id = _
    rw [findVerse_append, hmodfind]
    rfl

/-- C6: a successful branch seeds the child history with exactly one synthetic
system message whose text depends on whether a source message id was given, and
the two texts differ, so the branch kind is observable from the seeded text. -/
theorem c6_seed_system_message (s : CanvasState) (id : String) (parent : Verse)
    (modelId messageId : Option String) (sysMsgId : String) (now : Nat)
    (verseId chatComponentId : String) (adjustedSize : Size)
    (hfind : getVerse s id = some parent)
    (hfresh : ∀ v ∈ s.verses, v.id ≠ verseId) :
    (∃ child,
      getVerse (branchVerse id modelId messageId sysMsgId now verseId chatComponentId
        adjustedSize s) verseId = some child ∧
      child.chatHistory = [⟨Role.system,
        (if messageId.isSome then messageBranchSystemContent else verseBranchSystemContent),
        sysMsgId, now⟩]) ∧
    messageBranchSystemContent ≠ verseBranchSystemContent := by
  obtain ⟨child, hlook, _, _, _, hch, _, _, _⟩ :=
    branchVerse_spec s hfind modelId messageId sysMsgId now verseId chatComponentId
      adjustedSize hfresh
  refine ⟨⟨child, hlook, ?_⟩, by decide⟩
  rw [hch]
  cases messageId <;> rfl

/-- C6 witness: a message-level branch of the concrete root `A` at `m2`. -/
theorem c6_seed_system_message_witness :
    (∃ child,
      getVerse (branchVerse "A" none (some "m2") "sB" 4 "B" "ccB" ⟨800, 450⟩ sA) "B" =
        some child ∧
      child.chatHistory = [⟨Role.system,
        (if (some "m2").isSome then messageBranchSystemContent else verseBranchSystemContent),
        "sB", 4⟩]) ∧
    messageBranchSystemContent ≠ verseBranchSystemContent :=
  c6_seed_system_message sA "A" verseA0 none (some "m2") "sB" 4 "B" "ccB" ⟨800, 450⟩
    (by decide) (by decide)

/-- C3 counterexample: `branchVerse` called with a `sourceMessageId` that
matches no message of the parent still creates a verse (the collection grows
and the child records the dangling id); no `InvalidReference` failure occurs. -/
theorem c3_counterexample :
    (branchVerse "A" none (some "missing") "sX" 9 "X" "ccX" ⟨800, 450⟩ sA).verses.length = 2 ∧
    (∃ c ∈ (branchVerse "A" none (some "missing") "sX" 9 "X" "ccX" ⟨800, 450⟩ sA).verses,
      c.id = "X" ∧ c.parentId = some "A" ∧ c.branchSourceMessageId = some "missing") ∧
    (∀ msg ∈ verseA0.chatHistory, msg.id ≠ "missing") := by decide

/-- C3 amended: branch creation performs no validation of `sourceMessageId`:
even when the id matches no message of the parent's history, the branch is
created, its `branchSourceMessageId` holds the dangling id, and only the
display name falls back to the literal `specific message`. -/
theorem c3_amended_no_validation (s : CanvasState) (id : String) (parent : Verse)
    (mid : String) (modelId : Option String) (sysMsgId : String) (now : Nat)
    (verseId chatComponentId : String) (adjustedSize : Size)
    (hfind : getVerse s id = some parent)
    (hmiss : ∀ msg ∈ parent.chatHistory, msg.id ≠ mid)
    (hfresh : ∀ v ∈ s.verses, v.id ≠ verseId) :
    ∃ child,
      getVerse (branchVerse id modelId (some mid) sysMsgId now verseId chatComponentId
        adjustedSize s) verseId = some child ∧
      child.branchSourceMessageId = some mid ∧
      child.parentId = some parent.id ∧
      child.name = "Branch from \"" ++ "specific message" ++ "\" (" ++
        strOr parent.name (parent.id.take 4) ++ ")" ∧
      (branchVerse id modelId (some mid) sysMsgId now verseId chatComponentId
        adjustedSize s).verses.length = s.verses.length + 1 := by
  obtain ⟨child, hlook, _, hpar, hbsm, _, hname, hlen, _⟩ :=
    branchVerse_spec s hfind modelId (some mid) sysMsgId now verseId chatComponentId
      adjustedSize hfresh
  refine ⟨child, hlook, hbsm, hpar, ?_, hlen⟩
  rw [hname mid rfl]
  have hfnone : parent.chatHistory.find? (fun msg => msg.id == mid) = none :=
    List.find?_eq_none.mpr fun msg hm => by simpa using hmiss msg hm
  rw [hfnone]

/-- C3 amended witness: the concrete dangling branch of `c3_counterexample`. -/
theorem c3_amended_no_validation_witness :
    ∃ child,
      getVerse (branchVerse "A" none (some "missing") "sX" 9 "X" "ccX" ⟨800, 450⟩ sA) "X" =
        some child ∧
      child.branchSourceMessageId = some "missing" ∧
      child.parentId = some verseA0.id ∧
      child.name = "Branch from \"" ++ "specific message" ++ "\" (" ++
        strOr verseA0.name (verseA0.id.take 4) ++ ")" ∧
      (branchVerse "A" none (some "missing") "sX" 9 "X" "ccX" ⟨800, 450⟩ sA).verses.length =
        sA.verses.length + 1 :=
  c3_amended_no_validation sA "A" verseA0 "missing" none "sX" 9 "X" "ccX" ⟨800, 450⟩
    (by decide) (by decide) (by decide)

/-- C7 counterexample: invoked with an id absent from the collection, the store
operations return a state propositionally equal to the input — the failed
precondition produces no observable `NotFound` error, only a silent no-op. -/
theorem c7_counterexample :
    branchVerse "zzz" none none "s1" 1 "n1" "cn1" ⟨1, 1⟩ sA = sA ∧
    updateVersePosition "zzz" ⟨5, 5⟩ sA = sA ∧
    removeVerse "zzz" sA = sA := by decide

/-- C7 amended: every modelled store operation invoked with a verse id absent
from the collection is a silent no-op: the whole state (the collection in
particular) is returned unchanged, and no error of any kind is signalled. -/
theorem c7_amended_silent_noop (s : CanvasState) (id : String)
    (h : ∀ v ∈ s.verses, v.id ≠ id) :
    (∀ modelId messageId sysMsgId now verseId chatComponentId adjustedSize,
      branchVerse id modelId messageId sysMsgId now verseId chatComponentId adjustedSize s = s) ∧
    removeVerse id s = s ∧
    (∀ position, updateVersePosition id position s = s) ∧
    (∀ size, updateVerseSize id size s = s) ∧
    (∀ name, updateVerseName id name s = s) ∧
    (∀ modelId, updateVerseModel id modelId s = s) ∧
    (∀ sp, updateSystemPrompt id sp s = s) ∧
    (∀ role content msgId now, addChatMessage id role content msgId now s = s) ∧
    (∀ cards, updateBoardCards id cards s = s) ∧
    (∀ cardId col, updateCardColumn id cardId col s = s) ∧
    (∀ data, updateSystemMapData id data s = s) ∧
    (∀ nodeId x y, updateSystemMapNode id nodeId x y s = s) ∧
    (∀ nodeId label, updateSystemMapNodeLabel id nodeId label s = s) ∧
    (∀ edgeId label, updateSystemMapEdgeLabel id edgeId label s = s) ∧
    (∀ ctype position compId, addComponent id ctype position compId s = s) ∧
    (∀ componentId, removeComponent id componentId s = s) ∧
    (∀ componentId position, updateComponentPosition id componentId position s = s) ∧
    (∀ componentId size, updateComponentSize id componentId size s = s) ∧
    (∀ componentId, setActiveComponent id componentId s = s) := by
  have hnone : findVerse s.verses id = none := findVerse_eq_none.mpr h
  have hmod : ∀ f : Verse → Verse, modifyVerse id f s.verses = s.verses :=
    fun f => modifyVerse_not_found f h
  refine ⟨?_, ?_, ?_, ?_, ?_, ?_, ?_, ?_, ?_, ?_, ?_, ?_, ?_, ?_, ?_, ?_, ?_, ?_, ?_⟩
  · intro modelId messageId sysMsgId now verseId chatComponentId adjustedSize
    simp only [branchVerse, hnone]
  · simp only [removeVerse, hnone]
  · intro position
    simp only [updateVersePosition, hmod]
  · intro size
    simp only [updateVerseSize, hmod]
  · intro name
    simp only [updateVerseName, hmod]
  · intro modelId
    simp only [updateVerseModel, hmod]
  · intro sp
    simp only [updateSystemPrompt, hmod]
  · intro role content msgId now
    simp only [addChatMessage, hmod]
  · intro cards
    simp only [updateBoardCards, hmod]
  · intro cardId col
    simp only [updateCardColumn, hnone]
  · intro data
    simp only [updateSystemMapData, hmod]
  · intro nodeId x y
    simp only [updateSystemMapNode, hnone]
  · intro nodeId label
    simp only [updateSystemMapNodeLabel, hnone]
  · intro edgeId label
    simp only [updateSystemMapEdgeLabel, hnone]
  · intro ctype position compId
    simp only [addComponent, hnone]
  · intro componentId
    simp only [removeComponent, hnone]
  · intro componentId position
    simp only [updateComponentPosition, hmod]
  · intro componentId size
    simp only [updateComponentSize, hmod]
  · intro componentId
    simp only [setActiveComponent, hnone]

/-- C7 amended witness: instantiated at the concrete single-verse state. -/
theorem c7_amended_silent_noop_witness :
    (∀ modelId messageId sysMsgId now verseId chatComponentId adjustedSize,
      branchVerse "zzz" modelId messageId sysMsgId now verseId chatComponentId adjustedSize sA = sA) ∧
    removeVerse "zzz" sA = sA ∧
    (∀ position, updateVersePosition "zzz" position sA = sA) ∧
    (∀ size, updateVerseSize "zzz" size sA = sA) ∧
    (∀ name, updateVerseName "zzz" name sA = sA) ∧
    (∀ modelId, updateVerseModel "zzz" modelId sA = sA) ∧
    (∀ sp, updateSystemPrompt "zzz" sp sA = sA) ∧
    (∀ role content msgId now, addChatMessage "zzz" role content msgId now sA = sA) ∧
    (∀ cards, updateBoardCards "zzz" cards sA = sA) ∧
    (∀ cardId col, updateCardColumn "zzz" cardId col sA = sA) ∧
    (∀ data, updateSystemMapData "zzz" data sA = sA) ∧
    (∀ nodeId x y, updateSystemMapNode "zzz" nodeId x y sA = sA) ∧
    (∀ nodeId label, updateSystemMapNodeLabel "zzz" nodeId label sA = sA) ∧
    (∀ edgeId label, updateSystemMapEdgeLabel "zzz" edgeId label sA = sA) ∧
    (∀ ctype position compId, addComponent "zzz" ctype position compId sA = sA) ∧
    (∀ componentId, removeComponent "zzz" componentId sA = sA) ∧
    (∀ componentId position, updateComponentPosition "zzz" componentId position sA = sA) ∧
    (∀ componentId size, updateComponentSize "zzz" componentId size sA = sA) ∧
    (∀ componentId, setActiveComponent "zzz" componentId sA = sA) :=
  c7_amended_silent_noop sA "zzz" (by decide)

/-! ### Context assembly lemmas (C1, C2, C9) -/

lemma getParentChainMsgs_found {verses : List Verse} {target : Verse} {fuel : Nat}
    {pid : String} {A : Verse} (hA : findVerse verses pid = some A) :
    getParentChainMsgs verses target (fuel + 1) pid =
      (match A.parentId with
        | some gp => getParentChainMsgs verses target fuel gp
        | none => []) ++ ancestorContribution target A := by
  rw [show getParentChainMsgs verses target (fuel + 1) pid =
      (match findVerse verses pid with
        | none => []
        | some parent =>
          match parent.parentId with
          | some gp => getParentChainMsgs verses target fuel gp ++ ancestorContribution target parent
          | none => ancestorContribution target parent) from rfl]
  rw [hA]
  show (match A.parentId with
    | some gp => getParentChainMsgs verses target fuel gp ++ ancestorContribution target A
    | none => ancestorContribution target A) = _
  cases hgp : A.parentId with
  | none => exact (List.nil_append _).symm
  | some gp => rfl

lemma ancestorContribution_of_not_direct {target A : Verse}
    (h : target.branchSourceMessageId = none ∨ target.parentId ≠ some A.id) :
    ancestorContribution target A = filterNonSystem A.chatHistory := by
  unfold ancestorContribution
  rcases h with h | h
  · rw [h]
  · cases hb : target.branchSourceMessageId with
    | none => rfl
    | some b =>
      show (if target.parentId = some A.id then
          match A.chatHistory.findIdx? (fun msg => msg.id == b) with
          | some messageIndex => filterNonSystem (A.chatHistory.take (messageIndex + 1))
          | none => filterNonSystem A.chatHistory
        else filterNonSystem A.chatHistory) = _
      rw [if_neg h]

lemma ancestorContribution_miss {target A : Verse} {b : String}
    (hb : target.branchSourceMessageId = some b)
    (hpar : target.parentId = some A.id)
    (hmiss : A.chatHistory.findIdx? (fun msg => msg.id == b) = none) :
    ancestorContribution target A = filterNonSystem A.chatHistory := by
  unfold ancestorContribution
  rw [hb]
  show (if target.parentId = some A.id then
      match A.chatHistory.findIdx? (fun msg => msg.id == b) with
      | some messageIndex => filterNonSystem (A.chatHistory.take (messageIndex + 1))
      | none => filterNonSystem A.chatHistory
    else filterNonSystem A.chatHistory) = _
  rw [if_pos hpar, hmiss]

lemma ancestorContribution_hit {target A : Verse} {b : String} {idx : Nat}
    (hb : target.branchSourceMessageId = some b)
    (hpar : target.parentId = some A.id)
    (hidx : A.chatHistory.findIdx? (fun msg => msg.id == b) = some idx) :
    ancestorContribution target A = filterNonSystem (A.chatHistory.take (idx + 1)) := by
  unfold ancestorContribution
  rw [hb]
  show (if target.parentId = some A.id then
      match A.chatHistory.findIdx? (fun msg => msg.id == b) with
      | some messageIndex => filterNonSystem (A.chatHistory.take (messageIndex + 1))
      | none => filterNonSystem A.chatHistory
    else filterNonSystem A.chatHistory) = _
  rw [if_pos hpar, hidx]

/-- C2 counterexample: in the chain `A → B → C` where `B` is a message-level
branch of `A` at `m2` (index 1 of `A`'s history) and `C` a whole-verse branch
of `B`, assembling `C`'s context includes `A`'s message `m3` (`"bye"`), which
lies after the branch point — the ancestor at which the branch occurred is not
truncated, contradicting the claim. -/
theorem c2_counterexample :
    verseB.branchSourceMessageId = some "m2" ∧
    verseB.parentId = some verseA.id ∧
    verseC.parentId = some verseB.id ∧
    verseA.chatHistory.findIdx? (fun msg => msg.id == "m2") = some 1 ∧
    assembleContextMsgs sABC verseC = [msgHi, msgHello, msgBye] ∧
    msgBye ∈ assembleContextMsgs sABC verseC ∧
    msgBye ∉ filterNonSystem (verseA.chatHistory.take 2) := by decide

/-- C2 amended: context assembly truncates only at the direct parent of the
verse whose context is assembled, driven by that verse's own
`branchSourceMessageId`; every ancestor that is not the direct parent of the
queried verse — including ancestors at which a deeper branch in the chain
occurred — contributes its full system-filtered history. -/
theorem c2_amended_truncation_only_at_direct_parent (verses : List Verse) (target : Verse)
    (fuel : Nat) (pid : String) (A : Verse)
    (hA : findVerse verses pid = some A)
    (hnot : target.branchSourceMessageId = none ∨ target.parentId ≠ some A.id) :
    getParentChainMsgs verses target (fuel + 1) pid =
      (match A.parentId with
        | some gp => getParentChainMsgs verses target fuel gp
        | none => []) ++ filterNonSystem A.chatHistory := by
  rw [getParentChainMsgs_found hA, ancestorContribution_of_not_direct hnot]

/-- C2 amended witness: the ancestor `A` of the concrete chain contributes its
full filtered history to `C`'s context although its direct child `B` carries a
branch point. -/
theorem c2_amended_truncation_only_at_direct_parent_witness :
    getParentChainMsgs sABC.verses verseC (1 + 1) "A" =
      (match verseA.parentId with
        | some gp => getParentChainMsgs sABC.verses verseC 1 gp
        | none => []) ++ filterNonSystem verseA.chatHistory :=
  c2_amended_truncation_only_at_direct_parent sABC.verses verseC 1 "A" verseA
    (by decide) (Or.inl (by decide))

/-- C9: when a verse's `branchSourceMessageId` matches no message of its direct
parent's current history, context assembly degrades gracefully: the parent
contributes its full system-filtered history, with no truncation and no
failure (the walk is total by construction). -/
theorem c9_dangling_branch_point_graceful (s : CanvasState) (target A : Verse)
    (pid b : String) (n : Nat)
    (hpar : target.parentId = some pid)
    (hA : getVerse s pid = some A)
    (hb : target.branchSourceMessageId = some b)
    (hmiss : A.chatHistory.findIdx? (fun msg => msg.id == b) = none)
    (hn : s.verses.length = n + 1) :
    assembleContextMsgs s target =
      (match A.parentId with
        | some gp => getParentChainMsgs s.verses target n gp
        | none => []) ++ filterNonSystem A.chatHistory := by
  have hA' : findVerse s.verses pid = some A := hA
  have hpid : A.id = pid := (findVerse_some hA').2
  have hpar' : target.parentId = some A.id := by rw [hpar, hpid]
  rw [show assembleContextMsgs s target =
      (match target.parentId with
        | none => []
        | some pid =>
          match findVerse s.verses pid with
          | none => []
          | some _ => getParentChainMsgs s.verses target s.verses.length pid) from rfl]
  rw [hpar]
  show (match findVerse s.verses pid with
    | none => []
    | some _ => getParentChainMsgs s.verses target s.verses.length pid) = _
  rw [hA']
  show getParentChainMsgs s.verses target s.verses.length pid = _
  rw [hn, getParentChainMsgs_found hA', ancestorContribution_miss hb hpar' hmiss]

/-- C9 witness: the dangling branch point of `verseBdangling` yields `A`'s full
filtered history. -/
theorem c9_dangling_branch_point_graceful_witness :
    assembleContextMsgs sADangling verseBdangling =
      (match verseA.parentId with
        | some gp => getParentChainMsgs sADangling.verses verseBdangling 1 gp
        | none => []) ++ filterNonSystem verseA.chatHistory :=
  c9_dangling_branch_point_graceful sADangling verseBdangling verseA "A" "gone" 1
    (by decide) (by decide) (by decide) (by decide) (by decide)

lemma get_not_mem_take {α : Type} (l : List α) (hnd : l.Nodup) (n j : Nat)
    (hj : j < l.length) (hn : n ≤ j) : l.get ⟨j, hj⟩ ∉ l.take n := by
  induction l generalizing n j with
  | nil => simp at hj
  | cons a t ih =>
    cases n with
    | zero => simp
    | succ n2 =>
      cases j with
      | zero => omega
      | succ j2 =>
        intro hmem
        have hj2 : j2 < t.length := by simpa using hj
        have hget : (a :: t).get ⟨j2 + 1, hj⟩ = t.get ⟨j2, hj2⟩ := rfl
        rw [hget, List.take_succ_cons] at hmem
        rcases List.mem_cons.mp hmem with h | h
        · have hmem2 : t.get ⟨j2, hj2⟩ ∈ t := List.get_mem t j2 hj2
          rw [h] at hmem2
          exact (List.nodup_cons.mp hnd).1 hmem2
        · exact ih (List.nodup_cons.mp hnd).2 n2 j2 hj2 (by omega) h

/-- C1: branching a parent `P` at a message `m` (sitting at index `idx` of
`P`'s history) and assembling context for the new child yields the context of
`P`'s own ancestors followed by exactly `P`'s non-system messages up to and
including `m`; when `P` is a root the result is exactly that truncated list,
and no message of `P` lying after `m` occurs in it. -/
theorem c1_branch_then_assemble (s : CanvasState) (id : String) (P : Verse) (m : ChatMessage)
    (idx : Nat) (modelId : Option String) (sysMsgId : String) (now : Nat)
    (verseId chatComponentId : String) (adjustedSize : Size)
    (hP : getVerse s id = some P)
    (hfresh : ∀ v ∈ s.verses, v.id ≠ verseId)
    (hidx : P.chatHistory.findIdx? (fun msg => msg.id == m.id) = some idx)
    (hnd : (P.chatHistory.map ChatMessage.id).Nodup) :
    ∃ child,
      getVerse (branchVerse id modelId (some m.id) sysMsgId now verseId chatComponentId
        adjustedSize s) verseId = some child ∧
      assembleContextMsgs (branchVerse id modelId (some m.id) sysMsgId now verseId
          chatComponentId adjustedSize s) child =
        (match P.parentId with
          | some gp => getParentChainMsgs (branchVerse id modelId (some m.id) sysMsgId now
              verseId chatComponentId adjustedSize s).verses child s.verses.length gp
          | none => []) ++ filterNonSystem (P.chatHistory.take (idx + 1)) ∧
      (P.parentId = none →
        assembleContextMsgs (branchVerse id modelId (some m.id) sysMsgId now verseId
            chatComponentId adjustedSize s) child =
          filterNonSystem (P.chatHistory.take (idx + 1)) ∧
        ∀ j, ∀ hj : j < P.chatHistory.length, idx < j →
          P.chatHistory.get ⟨j, hj⟩ ∉ assembleContextMsgs (branchVerse id modelId (some m.id)
            sysMsgId now verseId chatComponentId adjustedSize s) child) := by
  obtain ⟨child, hlook, hcid, hcpar, hcbsm, hch, hname, hlen, hparfind⟩ :=
    branchVerse_spec s hP modelId (some m.id) sysMsgId now verseId chatComponentId
      adjustedSize hfresh
  have hP' : findVerse s.verses id = some P := hP
  have hPid : P.id = id := (findVerse_some hP').2
  have hfindPid : findVerse (branchVerse id modelId (some m.id) sysMsgId now verseId
      chatComponentId adjustedSize s).verses id =
      some { P with branches := P.branches ++ [verseId] } := hparfind
  have hcparid : child.parentId = some id := by rw [hcpar, hPid]
  have hcpar2 : child.parentId = some ({ P with branches := P.branches ++ [verseId] } : Verse).id := by
    rw [hcpar]
  have hmain : assembleContextMsgs (branchVerse id modelId (some m.id) sysMsgId now verseId
      chatComponentId adjustedSize s) child =
      (match P.parentId with
        | some gp => getParentChainMsgs (branchVerse id modelId (some m.id) sysMsgId now
            verseId chatComponentId adjustedSize s).verses child s.verses.length gp
        | none => []) ++ filterNonSystem (P.chatHistory.take (idx + 1)) := by
    rw [show assembleContextMsgs (branchVerse id modelId (some m.id) sysMsgId now verseId
        chatComponentId adjustedSize s) child =
        (match child.parentId with
          | none => []
          | some pid =>
            match findVerse (branchVerse id modelId (some m.id) sysMsgId now verseId
              chatComponentId adjustedSize s).verses pid with
            | none => []
            | some _ => getParentChainMsgs (branchVerse id modelId (some m.id) sysMsgId now
                verseId chatComponentId adjustedSize s).verses child
                (branchVerse id modelId (some m.id) sysMsgId now verseId
                  chatComponentId adjustedSize s).verses.length pid) from rfl]
    rw [hcparid]
    show (match findVerse (branchVerse id modelId (some m.id) sysMsgId now verseId
        chatComponentId adjustedSize s).verses id with
      | none => []
      | some _ => getParentChainMsgs (branchVerse id modelId (some m.id) sysMsgId now
          verseId chatComponentId adjustedSize s).verses child
          (branchVerse id modelId (some m.id) sysMsgId now verseId
            chatComponentId adjustedSize s).verses.length id) = _
    rw [hfindPid]
    show getParentChainMsgs (branchVerse id modelId (some m.id) sysMsgId now verseId
        chatComponentId adjustedSize s).verses child
        (branchVerse id modelId (some m.id) sysMsgId now verseId
          chatComponentId adjustedSize s).verses.length id = _
    rw [hlen, getParentChainMsgs_found hfindPid,
      ancestorContribution_hit hcbsm hcpar2 hidx]
  refine ⟨child, hlook, hmain, ?_⟩
  intro hroot
  have heq : assembleContextMsgs (branchVerse id modelId (some m.id) sysMsgId now verseId
      chatComponentId adjustedSize s) child = filterNonSystem (P.chatHistory.take (idx + 1)) := by
    rw [hmain, hroot]
    exact List.nil_append _
  refine ⟨heq, ?_⟩
  intro j hj hgt hmem
  rw [heq] at hmem
  have hmem2 : P.chatHistory.get ⟨j, hj⟩ ∈ P.chatHistory.take (idx + 1) :=
    List.mem_of_mem_filter hmem
  exact get_not_mem_take P.chatHistory hnd.of_map (idx + 1) j hj (by omega) hmem2

/-- C1 witness: the spec scenario — root `A` with `m1`, `m2`, `m3`, branched at
`m2`; the child's assembled context is exactly the first two messages and the
later message `m3` is excluded. -/
theorem c1_branch_then_assemble_witness :
    ∃ child,
      getVerse (branchVerse "A" none (some "m2") "sB" 4 "B" "ccB" ⟨800, 450⟩ sA) "B" =
        some child ∧
      assembleContextMsgs (branchVerse "A" none (some "m2") "sB" 4 "B" "ccB" ⟨800, 450⟩ sA)
          child =
        (match verseA0.parentId with
          | some gp => getParentChainMsgs (branchVerse "A" none (some "m2") "sB" 4 "B" "ccB"
              ⟨800, 450⟩ sA).verses child sA.verses.length gp
          | none => []) ++ filterNonSystem (verseA0.chatHistory.take (1 + 1)) ∧
      (verseA0.parentId = none →
        assembleContextMsgs (branchVerse "A" none (some "m2") "sB" 4 "B" "ccB" ⟨800, 450⟩ sA)
            child =
          filterNonSystem (verseA0.chatHistory.take (1 + 1)) ∧
        ∀ j, ∀ hj : j < verseA0.chatHistory.length, 1 < j →
          verseA0.chatHistory.get ⟨j, hj⟩ ∉
            assembleContextMsgs (branchVerse "A" none (some "m2") "sB" 4 "B" "ccB"
              ⟨800, 450⟩ sA) child) :=
  c1_branch_then_assemble sA "A" verseA0 msgHello 1 none "sB" 4 "B" "ccB" ⟨800, 450⟩
    (by decide) (by decide) (by decide) (by decide)

/-! ### Extraction regeneration (C4) -/

/-- C4 counterexample: with a previously cached `boardCards` artifact (the
empty list) a failed regeneration (ok response with unparseable JSON) does call
the cache setter — with the built-in mock cards, replacing the cached value —
and the run ends in a successful set action, not a `ParseError`. -/
theorem c4_counterexample :
    verseCachedEmptyBoard.boardCards = some [] ∧
    handleAddBoard verseCachedEmptyBoard FetchOutcome.okMalformed =
      BoardAction.setCardsAndAddComponent (flattenInsightData mockInsightData) ∧
    flattenInsightData mockInsightData ≠ [] ∧
    some (flattenInsightData mockInsightData) ≠ verseCachedEmptyBoard.boardCards := by decide

/-- C4 amended: a verse with a nonempty cached artifact never regenerates
through these handlers (only a display component is added, the cache is
untouched); when regeneration does run (cache absent or empty) and the fetch
fails, returns non-OK, or returns unparseable JSON, the handler substitutes
the built-in mock data and calls the cache setter with it — no `ParseError` is
surfaced anywhere. -/
theorem c4_amended_mock_fallback :
    (∀ (verse : Verse) (cs : List BoardCard) (o : FetchOutcome InsightResp),
      verse.boardCards = some cs → cs ≠ [] →
      handleAddBoard verse o = BoardAction.addComponentOnly) ∧
    (∀ (verse : Verse) (o : FetchOutcome InsightResp),
      hasBoardCards verse = false →
      (verse.chatHistory.filter fun msg => msg.role != Role.system).length ≠ 0 →
      (∀ d, o ≠ FetchOutcome.okJson d) →
      handleAddBoard verse o =
        BoardAction.setCardsAndAddComponent (flattenInsightData mockInsightData)) ∧
    (∀ (verse : Verse) (d : SystemMapData) (o : FetchOutcome SystemMapData),
      verse.systemMapData = some d → d.nodes ≠ [] →
      handleGenerateSystemMap verse o = MapAction.addComponentOnly) ∧
    (∀ (verse : Verse) (o : FetchOutcome SystemMapData),
      hasSystemMap verse = false →
      (verse.chatHistory.filter fun msg => msg.role != Role.system).length ≠ 0 →
      (∀ d, o ≠ FetchOutcome.okJson d) →
      handleGenerateSystemMap verse o = MapAction.setMapAndAddComponent mockSystemMapData) := by
  refine ⟨?_, ?_, ?_, ?_⟩
  · intro verse cs o hbc hne
    have hhas : hasBoardCards verse = true := by
      simp [hasBoardCards, hbc, List.length_pos]
      exact hne
    simp [handleAddBoard, hhas]
  · intro verse o h1 h2 h3
    cases o with
    | okJson d => exact absurd rfl (h3 d)
    | netError => simp [handleAddBoard, h1, h2, resolveInsightData]
    | notOk => simp [handleAddBoard, h1, h2, resolveInsightData]
    | okMalformed => simp [handleAddBoard, h1, h2, resolveInsightData]
  · intro verse d o hsm hne
    have hhas : hasSystemMap verse = true := by
      simp [hasSystemMap, hsm, List.length_pos]
      exact hne
    simp [handleGenerateSystemMap, hhas]
  · intro verse o h1 h2 h3
    cases o with
    | okJson d => exact absurd rfl (h3 d)
    | netError => simp [handleGenerateSystemMap, h1, h2, resolveSystemMapData]
    | notOk => simp [handleGenerateSystemMap, h1, h2, resolveSystemMapData]
    | okMalformed => simp [handleGenerateSystemMap, h1, h2, resolveSystemMapData]

/-- C4 amended witness: instantiated at concrete verses and a non-OK fetch. -/
theorem c4_amended_mock_fallback_witness :
    handleAddBoard verseCachedBoard FetchOutcome.notOk = BoardAction.addComponentOnly ∧
    handleAddBoard verseNoCache FetchOutcome.notOk =
      BoardAction.setCardsAndAddComponent (flattenInsightData mockInsightData) ∧
    handleGenerateSystemMap verseCachedMap FetchOutcome.notOk = MapAction.addComponentOnly ∧
    handleGenerateSystemMap verseNoCache FetchOutcome.notOk =
      MapAction.setMapAndAddComponent mockSystemMapData :=
  ⟨c4_amended_mock_fallback.1 verseCachedBoard [⟨"k1", "card", Column.elaborate⟩]
      FetchOutcome.notOk rfl (by decide),
    c4_amended_mock_fallback.2.1 verseNoCache FetchOutcome.notOk (by decide) (by decide)
      (by intro d h; cases h),
    c4_amended_mock_fallback.2.2.1 verseCachedMap ⟨[⟨"n1", "Node", 0, 0, NodeType.service⟩], []⟩
      FetchOutcome.notOk rfl (by decide),
    c4_amended_mock_fallback.2.2.2 verseNoCache FetchOutcome.notOk (by decide) (by decide)
      (by intro d h; cases h)⟩

end Canvas
